import Mathlib

/-!
# static-yxorp-worker: the request relay of `src/worker.js`

A shallow embedding of the worker's `fetch` handler and of its two helpers
`corsHeaders` and `cleanHeaders`, together with the parts of the JavaScript
platform the handler calls (`btoa`, `atob`, `encodeURIComponent`, `unescape`,
`decodeURIComponent`, the `Headers` class, object literals and spread).

Strings.  A JavaScript string is modelled as a list of Unicode scalar values
(`List Char`): every string the handler reads is a serialised URL, a header
name or a header value, none of which can hold an unpaired surrogate.  The one
operation that can manufacture arbitrary UTF-16 code units, `unescape`, returns
a list of code units (`List Nat`), which is what `btoa` consumes.
-/

namespace Yxorp

/-- A JavaScript string: its characters in order. -/
abbrev Str := List Char

/-- Exceptions the platform functions used by the worker can throw. -/
inductive JsError where
  | uriError
  | invalidCharacterError
  | typeError
  | rangeError
  | networkError
  deriving DecidableEq, Repr

deriving instance DecidableEq for Except

/-! ## Hexadecimal digits and UTF-8 -/

/-- Value of a hexadecimal digit, upper or lower case. -/
def hexVal (c : Char) : Option Nat :=
  let n := c.toNat
  if 48 ≤ n ∧ n ≤ 57 then some (n - 48)
  else if 65 ≤ n ∧ n ≤ 70 then some (n - 55)
  else if 97 ≤ n ∧ n ≤ 102 then some (n - 87)
  else none

/-- The upper-case hexadecimal digit of a value below 16. -/
def hexDigit (n : Nat) : Char :=
  "0123456789ABCDEF".data.getD n '0'

/-- The UTF-8 transformation of one code point (ECMAScript `Encode`, RFC 3629). -/
def utf8Encode (c : Char) : List Nat :=
  let cp := c.toNat
  if cp < 0x80 then [cp]
  else if cp < 0x800 then [0xC0 + cp / 64, 0x80 + cp % 64]
  else if cp < 0x10000 then [0xE0 + cp / 4096, 0x80 + cp / 64 % 64, 0x80 + cp % 64]
  else [0xF0 + cp / 262144, 0x80 + cp / 4096 % 64, 0x80 + cp / 64 % 64, 0x80 + cp % 64]

/-- The UTF-8 bytes of a string. -/
def utf8Bytes (s : Str) : List Nat :=
  s.flatMap utf8Encode

/-! ## `encodeURIComponent`, `unescape`, `decodeURIComponent` -/

/-- The characters `encodeURIComponent` leaves alone: letters, digits and
the marks `- _ . ! ~ * ' ( )`. -/
def isUnreserved (c : Char) : Bool :=
  let n := c.toNat
  (65 ≤ n && n ≤ 90) || (97 ≤ n && n ≤ 122) || (48 ≤ n && n ≤ 57) ||
    n = 45 || n = 95 || n = 46 || n = 33 || n = 126 || n = 42 || n = 39 || n = 40 || n = 41

/-- The escape `%XY` of one byte, with upper-case digits. -/
def percentEscape (b : Nat) : Str :=
  ['%', hexDigit (b / 16), hexDigit (b % 16)]

/-- ECMAScript `encodeURIComponent`: unreserved characters are kept, every
other code point becomes the escapes of its UTF-8 bytes.  (It throws only on an
unpaired surrogate, which `Str` cannot hold.) -/
def encodeURIComponent (s : Str) : Str :=
  s.flatMap fun c => if isUnreserved c then [c] else (utf8Encode c).flatMap percentEscape

/-- Two hexadecimal digits at the head of the text, as a number. -/
def hexByte : Str → Option Nat
  | h1 :: h2 :: _ =>
    match hexVal h1, hexVal h2 with
    | some a, some b => some (16 * a + b)
    | _, _ => none
  | _ => none

/-- The text `uXXXX` at the head (what may follow a `%` in `unescape`). -/
def hexU4 : Str → Option Nat
  | u :: h1 :: h2 :: h3 :: h4 :: _ =>
    if u = 'u' then
      match hexVal h1, hexVal h2, hexVal h3, hexVal h4 with
      | some a, some b, some c, some d => some (4096 * a + 256 * b + 16 * c + d)
      | _, _, _, _ => none
    else none
  | _ => none

/-- The scanning loop of `unescape`; `skip` is the number of characters already
consumed by the escape that was just read (the algorithm's `optionalAdvance`). -/
def unescapeAux : Nat → Str → List Nat
  | _, [] => []
  | skip + 1, _ :: rest => unescapeAux skip rest
  | 0, c :: rest =>
    if c = '%' then
      match hexU4 rest with
      | some n => n :: unescapeAux 5 rest
      | none =>
        match hexByte rest with
        | some n => n :: unescapeAux 2 rest
        | none => c.toNat :: unescapeAux 0 rest
    else c.toNat :: unescapeAux 0 rest

/-- ECMAScript (Annex B) `unescape`: `%uXXXX` and `%XX` become the code unit
they name, everything else is kept.  The result is a list of code units. -/
def unescape (s : Str) : List Nat :=
  unescapeAux 0 s

/-- An escape `%XY` at the head of the text, as a byte. -/
def escapedByte : Str → Option Nat
  | c :: rest => if c = '%' then hexByte rest else none
  | [] => none

/-- The code point of a well-formed UTF-8 sequence of two to four bytes: the
continuation bytes lie in `80..BF`, the encoding is the shortest one, and the
code point is neither a surrogate nor above `10FFFF`. -/
def utf8Decode : List Nat → Option Nat
  | [b0, b1] =>
    let cp := (b0 % 32) * 64 + b1 % 64
    if 0x80 ≤ b1 ∧ b1 < 0xC0 ∧ 0x80 ≤ cp then some cp else none
  | [b0, b1, b2] =>
    let cp := (b0 % 16) * 4096 + (b1 % 64) * 64 + b2 % 64
    if 0x80 ≤ b1 ∧ b1 < 0xC0 ∧ 0x80 ≤ b2 ∧ b2 < 0xC0 ∧ 0x800 ≤ cp ∧ ¬ (0xD800 ≤ cp ∧ cp < 0xE000)
    then some cp else none
  | [b0, b1, b2, b3] =>
    let cp := (b0 % 8) * 262144 + (b1 % 64) * 4096 + (b2 % 64) * 64 + b3 % 64
    if 0x80 ≤ b1 ∧ b1 < 0xC0 ∧ 0x80 ≤ b2 ∧ b2 < 0xC0 ∧ 0x80 ≤ b3 ∧ b3 < 0xC0 ∧
      0x10000 ≤ cp ∧ cp < 0x110000
    then some cp else none
  | _ => none

/-- One escape sequence of `decodeURIComponent`, read from the text that
follows a `%`: the decoded character and how many characters after the `%` it
used.  `none` is the `URIError` of ECMAScript `Decode`: missing or non-hex
digits, a lead byte announcing one or more than four bytes, a continuation
that is not an escape, or bytes that are not well-formed UTF-8. -/
def decodeEscape (rest : Str) : Option (Char × Nat) :=
  match hexByte rest with
  | none => none
  | some b =>
    if b < 0x80 then some (Char.ofNat b, 2)
    else if b < 0xC0 then none
    else if b < 0xE0 then
      match escapedByte (rest.drop 2) with
      | some b1 => (utf8Decode [b, b1]).map fun cp => (Char.ofNat cp, 5)
      | none => none
    else if b < 0xF0 then
      match escapedByte (rest.drop 2), escapedByte (rest.drop 5) with
      | some b1, some b2 => (utf8Decode [b, b1, b2]).map fun cp => (Char.ofNat cp, 8)
      | _, _ => none
    else if b < 0xF8 then
      match escapedByte (rest.drop 2), escapedByte (rest.drop 5), escapedByte (rest.drop 8) with
      | some b1, some b2, some b3 =>
        (utf8Decode [b, b1, b2, b3]).map fun cp => (Char.ofNat cp, 11)
      | _, _, _ => none
    else none

/-- The scanning loop of `decodeURIComponent`; `skip` counts the characters of
the escape sequence just decoded that are still to be stepped over. -/
def decodeURIComponentAux : Nat → Str → Except JsError Str
  | _, [] => .ok []
  | skip + 1, _ :: rest => decodeURIComponentAux skip rest
  | 0, c :: rest =>
    if c = '%' then
      match decodeEscape rest with
      | none => .error .uriError
      | some (ch, adv) =>
        match decodeURIComponentAux adv rest with
        | .ok out => .ok (ch :: out)
        | .error e => .error e
    else
      match decodeURIComponentAux 0 rest with
      | .ok out => .ok (c :: out)
      | .error e => .error e

/-- ECMAScript `decodeURIComponent`: every `%XY` escape sequence is replaced by
the character whose UTF-8 encoding it spells; all other characters, including
those above `7F`, are copied as they are. -/
def decodeURIComponent (s : Str) : Except JsError Str :=
  decodeURIComponentAux 0 s

/-! ## Base64: `btoa` and `atob` -/

/-- The base64 alphabet of RFC 4648, section 4. -/
def base64Alphabet : Str :=
  "ABCDEFGHIJKLMNOPQRSTUVWXYZabcdefghijklmnopqrstuvwxyz0123456789+/".data

/-- The character of a sextet. -/
def base64Char (n : Nat) : Char :=
  base64Alphabet.getD n 'A'

/-- The sextet of a character of the alphabet. -/
def base64Val (c : Char) : Option Nat :=
  let n := c.toNat
  if 65 ≤ n ∧ n ≤ 90 then some (n - 65)
  else if 97 ≤ n ∧ n ≤ 122 then some (n - 71)
  else if 48 ≤ n ∧ n ≤ 57 then some (n + 4)
  else if n = 43 then some 62
  else if n = 47 then some 63
  else none

/-- Standard base64 with padding, three bytes to four characters. -/
def base64Encode : List Nat → Str
  | [] => []
  | [a] => [base64Char (a / 4), base64Char (a % 4 * 16), '=', '=']
  | [a, b] => [base64Char (a / 4), base64Char (a % 4 * 16 + b / 16), base64Char (b % 16 * 4), '=']
  | a :: b :: c :: rest =>
    base64Char (a / 4) :: base64Char (a % 4 * 16 + b / 16) ::
      base64Char (b % 16 * 4 + c / 64) :: base64Char (c % 64) :: base64Encode rest

/-- The platform function `btoa`: base64 of a binary string, with an
`InvalidCharacterError` when a code unit is above `FF`. -/
def btoa (s : List Nat) : Except JsError Str :=
  if s.all (fun u => decide (u ≤ 255)) then .ok (base64Encode s) else .error .invalidCharacterError

/-- ASCII whitespace: tab, line feed, form feed, carriage return, space. -/
def isAsciiWhitespace (c : Char) : Bool :=
  let n := c.toNat
  n = 9 || n = 10 || n = 12 || n = 13 || n = 32

/-- Removal of one or two trailing `=`. -/
def stripPadding (d : Str) : Str :=
  match d.reverse with
  | a :: b :: r => if a = '=' then (if b = '=' then r.reverse else (b :: r).reverse) else d
  | [a] => if a = '=' then [] else d
  | [] => d

/-- Sextets to bytes, four to three; a final group of two or three sextets
gives one or two bytes, its spare bits dropped. -/
def decodeSextets : List Nat → List Nat
  | a :: b :: c :: d :: rest =>
    (a * 4 + b / 16) :: (b % 16 * 16 + c / 4) :: (c % 4 * 64 + d) :: decodeSextets rest
  | [a, b, c] => [a * 4 + b / 16, b % 16 * 16 + c / 4]
  | [a, b] => [a * 4 + b / 16]
  | _ => []

/-- The platform function `atob` (forgiving-base64 decode): whitespace is
removed, padding is removed when the length is a multiple of four, a length
that is `1` modulo `4` or a character outside the alphabet is an
`InvalidCharacterError`; the result is a binary string. -/
def atob (data : Str) : Except JsError Str :=
  let d := data.filter fun c => !isAsciiWhitespace c
  let d := if d.length % 4 = 0 then stripPadding d else d
  if d.length % 4 = 1 then .error .invalidCharacterError
  else
    match d.mapM base64Val with
    | none => .error .invalidCharacterError
    | some vals => .ok ((decodeSextets vals).map Char.ofNat)

/-! ## The url-safe base64 pair used by the worker -/

/-- The expression `s.replace(/X/g, "Y")` for single characters `X` and `Y`. -/
def replaceAll (x y : Char) (s : Str) : Str :=
  s.map fun c => if c = x then y else c

/-- The expression `s.replace(/=+$/, "")`: the trailing run of `=` is removed. -/
def stripTrailingEq (s : Str) : Str :=
  (s.reverse.dropWhile fun c => c == '=').reverse

/-- Lines 75-76 of `worker.js`: `btoa(unescape(encodeURIComponent(u)))`,
then the three `replace` calls: every plus sign becomes a minus sign, every
slash an underscore, and the trailing run of `=` is removed. -/
def encodeLocation (u : Str) : Except JsError Str :=
  match btoa (unescape (encodeURIComponent u)) with
  | .ok b => .ok (stripTrailingEq (replaceAll '/' '_' (replaceAll '+' '-' b)))
  | .error e => .error e

/-- Line 27 of `worker.js`: `decodeURIComponent(atob(e))`, where `e` is
`encoded` with every minus sign replaced by a plus sign and every underscore
by a slash (the two global `replace` calls). -/
def decodeTarget (encoded : Str) : Except JsError Str :=
  match atob (replaceAll '_' '/' (replaceAll '-' '+' encoded)) with
  | .ok bin => decodeURIComponent bin
  | .error e => .error e

/-! ## Header lists and the `Headers` class (WHATWG Fetch)

A `Headers` object is its header list: names and values in the order they were
added.  Names are matched byte-case-insensitively.  The model does not
represent the validation of names and values (a `TypeError` on a name that is
not a token or a value holding NUL, CR or LF): every name and value the worker
passes to a `Headers` object was read from a `Headers` object, is one of the
constants of `corsHeaders`, or is the rewritten `location`, which is made of
`/proxy/` and base64 characters. -/

/-- A header: name and value. -/
abbrev Header := Str × Str

/-- A header list. -/
abbrev Headers := List Header

/-- Byte-lowercasing: `A`..`Z` to `a`..`z`. -/
def byteLower (c : Char) : Char :=
  if 65 ≤ c.toNat ∧ c.toNat ≤ 90 then Char.ofNat (c.toNat + 32) else c

/-- Byte-lowercase of a name. -/
def byteLowercase (s : Str) : Str :=
  s.map byteLower

/-! ### `String.prototype.toLowerCase`

The method lowercases by the Unicode default case conversion, without a locale:
every code point goes to its simple lowercase mapping (`UnicodeData.txt`), with
the two rules of `SpecialCasing.txt` that apply without a locale: `U+0130`
becomes `U+0069 U+0307`, and `U+03A3` becomes the final sigma `U+03C2` where
the condition `Final_Sigma` holds.  The data below are those of Unicode 15.0,
as the library ICU (release 72) holds them; later versions of Unicode add
mappings between code points that version 15.0 leaves unassigned. -/

/-- A run `(first, last, step, target)` of the lowercase table: the code points
`first`, `first + step`, ... up to `last` go to `target`, `target + step`, ... -/
abbrev LowerRange := Nat × Nat × Nat × Nat

/-- The simple lowercase mappings of the Unicode Character Database: every
code point that has one lies in exactly one run. -/
def lowercaseTable : List LowerRange :=
  [
    (0x41, 0x5A, 1, 0x61), (0xC0, 0xD6, 1, 0xE0), (0xD8, 0xDE, 1, 0xF8),
    (0x100, 0x12E, 2, 0x101), (0x130, 0x130, 1, 0x69), (0x132, 0x136, 2, 0x133),
    (0x139, 0x147, 2, 0x13A), (0x14A, 0x176, 2, 0x14B), (0x178, 0x178, 1, 0xFF),
    (0x179, 0x17D, 2, 0x17A), (0x181, 0x181, 1, 0x253), (0x182, 0x184, 2, 0x183),
    (0x186, 0x186, 1, 0x254), (0x187, 0x187, 1, 0x188), (0x189, 0x18A, 1, 0x256),
    (0x18B, 0x18B, 1, 0x18C), (0x18E, 0x18E, 1, 0x1DD), (0x18F, 0x18F, 1, 0x259),
    (0x190, 0x190, 1, 0x25B), (0x191, 0x191, 1, 0x192), (0x193, 0x193, 1, 0x260),
    (0x194, 0x194, 1, 0x263), (0x196, 0x196, 1, 0x269), (0x197, 0x197, 1, 0x268),
    (0x198, 0x198, 1, 0x199), (0x19C, 0x19C, 1, 0x26F), (0x19D, 0x19D, 1, 0x272),
    (0x19F, 0x19F, 1, 0x275), (0x1A0, 0x1A4, 2, 0x1A1), (0x1A6, 0x1A6, 1, 0x280),
    (0x1A7, 0x1A7, 1, 0x1A8), (0x1A9, 0x1A9, 1, 0x283), (0x1AC, 0x1AC, 1, 0x1AD),
    (0x1AE, 0x1AE, 1, 0x288), (0x1AF, 0x1AF, 1, 0x1B0), (0x1B1, 0x1B2, 1, 0x28A),
    (0x1B3, 0x1B5, 2, 0x1B4), (0x1B7, 0x1B7, 1, 0x292), (0x1B8, 0x1B8, 1, 0x1B9),
    (0x1BC, 0x1BC, 1, 0x1BD), (0x1C4, 0x1C4, 1, 0x1C6), (0x1C5, 0x1C5, 1, 0x1C6),
    (0x1C7, 0x1C7, 1, 0x1C9), (0x1C8, 0x1C8, 1, 0x1C9), (0x1CA, 0x1CA, 1, 0x1CC),
    (0x1CB, 0x1DB, 2, 0x1CC), (0x1DE, 0x1EE, 2, 0x1DF), (0x1F1, 0x1F1, 1, 0x1F3),
    (0x1F2, 0x1F4, 2, 0x1F3), (0x1F6, 0x1F6, 1, 0x195), (0x1F7, 0x1F7, 1, 0x1BF),
    (0x1F8, 0x21E, 2, 0x1F9), (0x220, 0x220, 1, 0x19E), (0x222, 0x232, 2, 0x223),
    (0x23A, 0x23A, 1, 0x2C65), (0x23B, 0x23B, 1, 0x23C), (0x23D, 0x23D, 1, 0x19A),
    (0x23E, 0x23E, 1, 0x2C66), (0x241, 0x241, 1, 0x242), (0x243, 0x243, 1, 0x180),
    (0x244, 0x244, 1, 0x289), (0x245, 0x245, 1, 0x28C), (0x246, 0x24E, 2, 0x247),
    (0x370, 0x372, 2, 0x371), (0x376, 0x376, 1, 0x377), (0x37F, 0x37F, 1, 0x3F3),
    (0x386, 0x386, 1, 0x3AC), (0x388, 0x38A, 1, 0x3AD), (0x38C, 0x38C, 1, 0x3CC),
    (0x38E, 0x38F, 1, 0x3CD), (0x391, 0x3A1, 1, 0x3B1), (0x3A3, 0x3AB, 1, 0x3C3),
    (0x3CF, 0x3CF, 1, 0x3D7), (0x3D8, 0x3EE, 2, 0x3D9), (0x3F4, 0x3F4, 1, 0x3B8),
    (0x3F7, 0x3F7, 1, 0x3F8), (0x3F9, 0x3F9, 1, 0x3F2), (0x3FA, 0x3FA, 1, 0x3FB),
    (0x3FD, 0x3FF, 1, 0x37B), (0x400, 0x40F, 1, 0x450), (0x410, 0x42F, 1, 0x430),
    (0x460, 0x480, 2, 0x461), (0x48A, 0x4BE, 2, 0x48B), (0x4C0, 0x4C0, 1, 0x4CF),
    (0x4C1, 0x4CD, 2, 0x4C2), (0x4D0, 0x52E, 2, 0x4D1), (0x531, 0x556, 1, 0x561),
    (0x10A0, 0x10C5, 1, 0x2D00), (0x10C7, 0x10C7, 1, 0x2D27), (0x10CD, 0x10CD, 1, 0x2D2D),
    (0x13A0, 0x13EF, 1, 0xAB70), (0x13F0, 0x13F5, 1, 0x13F8), (0x1C90, 0x1CBA, 1, 0x10D0),
    (0x1CBD, 0x1CBF, 1, 0x10FD), (0x1E00, 0x1E94, 2, 0x1E01), (0x1E9E, 0x1E9E, 1, 0xDF),
    (0x1EA0, 0x1EFE, 2, 0x1EA1), (0x1F08, 0x1F0F, 1, 0x1F00), (0x1F18, 0x1F1D, 1, 0x1F10),
    (0x1F28, 0x1F2F, 1, 0x1F20), (0x1F38, 0x1F3F, 1, 0x1F30), (0x1F48, 0x1F4D, 1, 0x1F40),
    (0x1F59, 0x1F5F, 2, 0x1F51), (0x1F68, 0x1F6F, 1, 0x1F60), (0x1F88, 0x1F8F, 1, 0x1F80),
    (0x1F98, 0x1F9F, 1, 0x1F90), (0x1FA8, 0x1FAF, 1, 0x1FA0), (0x1FB8, 0x1FB9, 1, 0x1FB0),
    (0x1FBA, 0x1FBB, 1, 0x1F70), (0x1FBC, 0x1FBC, 1, 0x1FB3), (0x1FC8, 0x1FCB, 1, 0x1F72),
    (0x1FCC, 0x1FCC, 1, 0x1FC3), (0x1FD8, 0x1FD9, 1, 0x1FD0), (0x1FDA, 0x1FDB, 1, 0x1F76),
    (0x1FE8, 0x1FE9, 1, 0x1FE0), (0x1FEA, 0x1FEB, 1, 0x1F7A), (0x1FEC, 0x1FEC, 1, 0x1FE5),
    (0x1FF8, 0x1FF9, 1, 0x1F78), (0x1FFA, 0x1FFB, 1, 0x1F7C), (0x1FFC, 0x1FFC, 1, 0x1FF3),
    (0x2126, 0x2126, 1, 0x3C9), (0x212A, 0x212A, 1, 0x6B), (0x212B, 0x212B, 1, 0xE5),
    (0x2132, 0x2132, 1, 0x214E), (0x2160, 0x216F, 1, 0x2170), (0x2183, 0x2183, 1, 0x2184),
    (0x24B6, 0x24CF, 1, 0x24D0), (0x2C00, 0x2C2F, 1, 0x2C30), (0x2C60, 0x2C60, 1, 0x2C61),
    (0x2C62, 0x2C62, 1, 0x26B), (0x2C63, 0x2C63, 1, 0x1D7D), (0x2C64, 0x2C64, 1, 0x27D),
    (0x2C67, 0x2C6B, 2, 0x2C68), (0x2C6D, 0x2C6D, 1, 0x251), (0x2C6E, 0x2C6E, 1, 0x271),
    (0x2C6F, 0x2C6F, 1, 0x250), (0x2C70, 0x2C70, 1, 0x252), (0x2C72, 0x2C72, 1, 0x2C73),
    (0x2C75, 0x2C75, 1, 0x2C76), (0x2C7E, 0x2C7F, 1, 0x23F), (0x2C80, 0x2CE2, 2, 0x2C81),
    (0x2CEB, 0x2CED, 2, 0x2CEC), (0x2CF2, 0x2CF2, 1, 0x2CF3), (0xA640, 0xA66C, 2, 0xA641),
    (0xA680, 0xA69A, 2, 0xA681), (0xA722, 0xA72E, 2, 0xA723), (0xA732, 0xA76E, 2, 0xA733),
    (0xA779, 0xA77B, 2, 0xA77A), (0xA77D, 0xA77D, 1, 0x1D79), (0xA77E, 0xA786, 2, 0xA77F),
    (0xA78B, 0xA78B, 1, 0xA78C), (0xA78D, 0xA78D, 1, 0x265), (0xA790, 0xA792, 2, 0xA791),
    (0xA796, 0xA7A8, 2, 0xA797), (0xA7AA, 0xA7AA, 1, 0x266), (0xA7AB, 0xA7AB, 1, 0x25C),
    (0xA7AC, 0xA7AC, 1, 0x261), (0xA7AD, 0xA7AD, 1, 0x26C), (0xA7AE, 0xA7AE, 1, 0x26A),
    (0xA7B0, 0xA7B0, 1, 0x29E), (0xA7B1, 0xA7B1, 1, 0x287), (0xA7B2, 0xA7B2, 1, 0x29D),
    (0xA7B3, 0xA7B3, 1, 0xAB53), (0xA7B4, 0xA7C2, 2, 0xA7B5), (0xA7C4, 0xA7C4, 1, 0xA794),
    (0xA7C5, 0xA7C5, 1, 0x282), (0xA7C6, 0xA7C6, 1, 0x1D8E), (0xA7C7, 0xA7C9, 2, 0xA7C8),
    (0xA7D0, 0xA7D0, 1, 0xA7D1), (0xA7D6, 0xA7D8, 2, 0xA7D7), (0xA7F5, 0xA7F5, 1, 0xA7F6),
    (0xFF21, 0xFF3A, 1, 0xFF41), (0x10400, 0x10427, 1, 0x10428), (0x104B0, 0x104D3, 1, 0x104D8),
    (0x10570, 0x10594, 2, 0x10597), (0x10571, 0x10579, 2, 0x10598),
    (0x1057D, 0x10589, 2, 0x105A4), (0x1058D, 0x10591, 2, 0x105B4),
    (0x10595, 0x10595, 1, 0x105BC), (0x10C80, 0x10CB2, 1, 0x10CC0),
    (0x118A0, 0x118BF, 1, 0x118C0), (0x16E40, 0x16E5F, 1, 0x16E60),
    (0x1E900, 0x1E921, 1, 0x1E922) ]

/-- The code points with the property `Cased`, as ranges with both ends. -/
def casedRanges : List (Nat × Nat) :=
  [
    (0x41, 0x5A), (0x61, 0x7A), (0xAA, 0xAA), (0xB5, 0xB5), (0xBA, 0xBA), (0xC0, 0xD6),
    (0xD8, 0xF6), (0xF8, 0x1BA), (0x1BC, 0x1BF), (0x1C4, 0x293), (0x295, 0x2B8), (0x2C0, 0x2C1),
    (0x2E0, 0x2E4), (0x345, 0x345), (0x370, 0x373), (0x376, 0x377), (0x37A, 0x37D),
    (0x37F, 0x37F), (0x386, 0x386), (0x388, 0x38A), (0x38C, 0x38C), (0x38E, 0x3A1),
    (0x3A3, 0x3F5), (0x3F7, 0x481), (0x48A, 0x52F), (0x531, 0x556), (0x560, 0x588),
    (0x10A0, 0x10C5), (0x10C7, 0x10C7), (0x10CD, 0x10CD), (0x10D0, 0x10FA), (0x10FC, 0x10FF),
    (0x13A0, 0x13F5), (0x13F8, 0x13FD), (0x1C80, 0x1C88), (0x1C90, 0x1CBA), (0x1CBD, 0x1CBF),
    (0x1D00, 0x1DBF), (0x1E00, 0x1F15), (0x1F18, 0x1F1D), (0x1F20, 0x1F45), (0x1F48, 0x1F4D),
    (0x1F50, 0x1F57), (0x1F59, 0x1F59), (0x1F5B, 0x1F5B), (0x1F5D, 0x1F5D), (0x1F5F, 0x1F7D),
    (0x1F80, 0x1FB4), (0x1FB6, 0x1FBC), (0x1FBE, 0x1FBE), (0x1FC2, 0x1FC4), (0x1FC6, 0x1FCC),
    (0x1FD0, 0x1FD3), (0x1FD6, 0x1FDB), (0x1FE0, 0x1FEC), (0x1FF2, 0x1FF4), (0x1FF6, 0x1FFC),
    (0x2071, 0x2071), (0x207F, 0x207F), (0x2090, 0x209C), (0x2102, 0x2102), (0x2107, 0x2107),
    (0x210A, 0x2113), (0x2115, 0x2115), (0x2119, 0x211D), (0x2124, 0x2124), (0x2126, 0x2126),
    (0x2128, 0x2128), (0x212A, 0x212D), (0x212F, 0x2134), (0x2139, 0x2139), (0x213C, 0x213F),
    (0x2145, 0x2149), (0x214E, 0x214E), (0x2160, 0x217F), (0x2183, 0x2184), (0x24B6, 0x24E9),
    (0x2C00, 0x2CE4), (0x2CEB, 0x2CEE), (0x2CF2, 0x2CF3), (0x2D00, 0x2D25), (0x2D27, 0x2D27),
    (0x2D2D, 0x2D2D), (0xA640, 0xA66D), (0xA680, 0xA69D), (0xA722, 0xA787), (0xA78B, 0xA78E),
    (0xA790, 0xA7CA), (0xA7D0, 0xA7D1), (0xA7D3, 0xA7D3), (0xA7D5, 0xA7D9), (0xA7F2, 0xA7F6),
    (0xA7F8, 0xA7FA), (0xAB30, 0xAB5A), (0xAB5C, 0xAB69), (0xAB70, 0xABBF), (0xFB00, 0xFB06),
    (0xFB13, 0xFB17), (0xFF21, 0xFF3A), (0xFF41, 0xFF5A), (0x10400, 0x1044F), (0x104B0, 0x104D3),
    (0x104D8, 0x104FB), (0x10570, 0x1057A), (0x1057C, 0x1058A), (0x1058C, 0x10592),
    (0x10594, 0x10595), (0x10597, 0x105A1), (0x105A3, 0x105B1), (0x105B3, 0x105B9),
    (0x105BB, 0x105BC), (0x10780, 0x10780), (0x10783, 0x10785), (0x10787, 0x107B0),
    (0x107B2, 0x107BA), (0x10C80, 0x10CB2), (0x10CC0, 0x10CF2), (0x118A0, 0x118DF),
    (0x16E40, 0x16E7F), (0x1D400, 0x1D454), (0x1D456, 0x1D49C), (0x1D49E, 0x1D49F),
    (0x1D4A2, 0x1D4A2), (0x1D4A5, 0x1D4A6), (0x1D4A9, 0x1D4AC), (0x1D4AE, 0x1D4B9),
    (0x1D4BB, 0x1D4BB), (0x1D4BD, 0x1D4C3), (0x1D4C5, 0x1D505), (0x1D507, 0x1D50A),
    (0x1D50D, 0x1D514), (0x1D516, 0x1D51C), (0x1D51E, 0x1D539), (0x1D53B, 0x1D53E),
    (0x1D540, 0x1D544), (0x1D546, 0x1D546), (0x1D54A, 0x1D550), (0x1D552, 0x1D6A5),
    (0x1D6A8, 0x1D6C0), (0x1D6C2, 0x1D6DA), (0x1D6DC, 0x1D6FA), (0x1D6FC, 0x1D714),
    (0x1D716, 0x1D734), (0x1D736, 0x1D74E), (0x1D750, 0x1D76E), (0x1D770, 0x1D788),
    (0x1D78A, 0x1D7A8), (0x1D7AA, 0x1D7C2), (0x1D7C4, 0x1D7CB), (0x1DF00, 0x1DF09),
    (0x1DF0B, 0x1DF1E), (0x1DF25, 0x1DF2A), (0x1E030, 0x1E06D), (0x1E900, 0x1E943),
    (0x1F130, 0x1F149), (0x1F150, 0x1F169), (0x1F170, 0x1F189) ]

/-- The code points with the property `Case_Ignorable`, as ranges with both
ends. -/
def caseIgnorableRanges : List (Nat × Nat) :=
  [
    (0x27, 0x27), (0x2E, 0x2E), (0x3A, 0x3A), (0x5E, 0x5E), (0x60, 0x60), (0xA8, 0xA8),
    (0xAD, 0xAD), (0xAF, 0xAF), (0xB4, 0xB4), (0xB7, 0xB8), (0x2B0, 0x36F), (0x374, 0x375),
    (0x37A, 0x37A), (0x384, 0x385), (0x387, 0x387), (0x483, 0x489), (0x559, 0x559),
    (0x55F, 0x55F), (0x591, 0x5BD), (0x5BF, 0x5BF), (0x5C1, 0x5C2), (0x5C4, 0x5C5),
    (0x5C7, 0x5C7), (0x5F4, 0x5F4), (0x600, 0x605), (0x610, 0x61A), (0x61C, 0x61C),
    (0x640, 0x640), (0x64B, 0x65F), (0x670, 0x670), (0x6D6, 0x6DD), (0x6DF, 0x6E8),
    (0x6EA, 0x6ED), (0x70F, 0x70F), (0x711, 0x711), (0x730, 0x74A), (0x7A6, 0x7B0),
    (0x7EB, 0x7F5), (0x7FA, 0x7FA), (0x7FD, 0x7FD), (0x816, 0x82D), (0x859, 0x85B),
    (0x888, 0x888), (0x890, 0x891), (0x898, 0x89F), (0x8C9, 0x902), (0x93A, 0x93A),
    (0x93C, 0x93C), (0x941, 0x948), (0x94D, 0x94D), (0x951, 0x957), (0x962, 0x963),
    (0x971, 0x971), (0x981, 0x981), (0x9BC, 0x9BC), (0x9C1, 0x9C4), (0x9CD, 0x9CD),
    (0x9E2, 0x9E3), (0x9FE, 0x9FE), (0xA01, 0xA02), (0xA3C, 0xA3C), (0xA41, 0xA42),
    (0xA47, 0xA48), (0xA4B, 0xA4D), (0xA51, 0xA51), (0xA70, 0xA71), (0xA75, 0xA75),
    (0xA81, 0xA82), (0xABC, 0xABC), (0xAC1, 0xAC5), (0xAC7, 0xAC8), (0xACD, 0xACD),
    (0xAE2, 0xAE3), (0xAFA, 0xAFF), (0xB01, 0xB01), (0xB3C, 0xB3C), (0xB3F, 0xB3F),
    (0xB41, 0xB44), (0xB4D, 0xB4D), (0xB55, 0xB56), (0xB62, 0xB63), (0xB82, 0xB82),
    (0xBC0, 0xBC0), (0xBCD, 0xBCD), (0xC00, 0xC00), (0xC04, 0xC04), (0xC3C, 0xC3C),
    (0xC3E, 0xC40), (0xC46, 0xC48), (0xC4A, 0xC4D), (0xC55, 0xC56), (0xC62, 0xC63),
    (0xC81, 0xC81), (0xCBC, 0xCBC), (0xCBF, 0xCBF), (0xCC6, 0xCC6), (0xCCC, 0xCCD),
    (0xCE2, 0xCE3), (0xD00, 0xD01), (0xD3B, 0xD3C), (0xD41, 0xD44), (0xD4D, 0xD4D),
    (0xD62, 0xD63), (0xD81, 0xD81), (0xDCA, 0xDCA), (0xDD2, 0xDD4), (0xDD6, 0xDD6),
    (0xE31, 0xE31), (0xE34, 0xE3A), (0xE46, 0xE4E), (0xEB1, 0xEB1), (0xEB4, 0xEBC),
    (0xEC6, 0xEC6), (0xEC8, 0xECE), (0xF18, 0xF19), (0xF35, 0xF35), (0xF37, 0xF37),
    (0xF39, 0xF39), (0xF71, 0xF7E), (0xF80, 0xF84), (0xF86, 0xF87), (0xF8D, 0xF97),
    (0xF99, 0xFBC), (0xFC6, 0xFC6), (0x102D, 0x1030), (0x1032, 0x1037), (0x1039, 0x103A),
    (0x103D, 0x103E), (0x1058, 0x1059), (0x105E, 0x1060), (0x1071, 0x1074), (0x1082, 0x1082),
    (0x1085, 0x1086), (0x108D, 0x108D), (0x109D, 0x109D), (0x10FC, 0x10FC), (0x135D, 0x135F),
    (0x1712, 0x1714), (0x1732, 0x1733), (0x1752, 0x1753), (0x1772, 0x1773), (0x17B4, 0x17B5),
    (0x17B7, 0x17BD), (0x17C6, 0x17C6), (0x17C9, 0x17D3), (0x17D7, 0x17D7), (0x17DD, 0x17DD),
    (0x180B, 0x180F), (0x1843, 0x1843), (0x1885, 0x1886), (0x18A9, 0x18A9), (0x1920, 0x1922),
    (0x1927, 0x1928), (0x1932, 0x1932), (0x1939, 0x193B), (0x1A17, 0x1A18), (0x1A1B, 0x1A1B),
    (0x1A56, 0x1A56), (0x1A58, 0x1A5E), (0x1A60, 0x1A60), (0x1A62, 0x1A62), (0x1A65, 0x1A6C),
    (0x1A73, 0x1A7C), (0x1A7F, 0x1A7F), (0x1AA7, 0x1AA7), (0x1AB0, 0x1ACE), (0x1B00, 0x1B03),
    (0x1B34, 0x1B34), (0x1B36, 0x1B3A), (0x1B3C, 0x1B3C), (0x1B42, 0x1B42), (0x1B6B, 0x1B73),
    (0x1B80, 0x1B81), (0x1BA2, 0x1BA5), (0x1BA8, 0x1BA9), (0x1BAB, 0x1BAD), (0x1BE6, 0x1BE6),
    (0x1BE8, 0x1BE9), (0x1BED, 0x1BED), (0x1BEF, 0x1BF1), (0x1C2C, 0x1C33), (0x1C36, 0x1C37),
    (0x1C78, 0x1C7D), (0x1CD0, 0x1CD2), (0x1CD4, 0x1CE0), (0x1CE2, 0x1CE8), (0x1CED, 0x1CED),
    (0x1CF4, 0x1CF4), (0x1CF8, 0x1CF9), (0x1D2C, 0x1D6A), (0x1D78, 0x1D78), (0x1D9B, 0x1DFF),
    (0x1FBD, 0x1FBD), (0x1FBF, 0x1FC1), (0x1FCD, 0x1FCF), (0x1FDD, 0x1FDF), (0x1FED, 0x1FEF),
    (0x1FFD, 0x1FFE), (0x200B, 0x200F), (0x2018, 0x2019), (0x2024, 0x2024), (0x2027, 0x2027),
    (0x202A, 0x202E), (0x2060, 0x2064), (0x2066, 0x206F), (0x2071, 0x2071), (0x207F, 0x207F),
    (0x2090, 0x209C), (0x20D0, 0x20F0), (0x2C7C, 0x2C7D), (0x2CEF, 0x2CF1), (0x2D6F, 0x2D6F),
    (0x2D7F, 0x2D7F), (0x2DE0, 0x2DFF), (0x2E2F, 0x2E2F), (0x3005, 0x3005), (0x302A, 0x302D),
    (0x3031, 0x3035), (0x303B, 0x303B), (0x3099, 0x309E), (0x30FC, 0x30FE), (0xA015, 0xA015),
    (0xA4F8, 0xA4FD), (0xA60C, 0xA60C), (0xA66F, 0xA672), (0xA674, 0xA67D), (0xA67F, 0xA67F),
    (0xA69C, 0xA69F), (0xA6F0, 0xA6F1), (0xA700, 0xA721), (0xA770, 0xA770), (0xA788, 0xA78A),
    (0xA7F2, 0xA7F4), (0xA7F8, 0xA7F9), (0xA802, 0xA802), (0xA806, 0xA806), (0xA80B, 0xA80B),
    (0xA825, 0xA826), (0xA82C, 0xA82C), (0xA8C4, 0xA8C5), (0xA8E0, 0xA8F1), (0xA8FF, 0xA8FF),
    (0xA926, 0xA92D), (0xA947, 0xA951), (0xA980, 0xA982), (0xA9B3, 0xA9B3), (0xA9B6, 0xA9B9),
    (0xA9BC, 0xA9BD), (0xA9CF, 0xA9CF), (0xA9E5, 0xA9E6), (0xAA29, 0xAA2E), (0xAA31, 0xAA32),
    (0xAA35, 0xAA36), (0xAA43, 0xAA43), (0xAA4C, 0xAA4C), (0xAA70, 0xAA70), (0xAA7C, 0xAA7C),
    (0xAAB0, 0xAAB0), (0xAAB2, 0xAAB4), (0xAAB7, 0xAAB8), (0xAABE, 0xAABF), (0xAAC1, 0xAAC1),
    (0xAADD, 0xAADD), (0xAAEC, 0xAAED), (0xAAF3, 0xAAF4), (0xAAF6, 0xAAF6), (0xAB5B, 0xAB5F),
    (0xAB69, 0xAB6B), (0xABE5, 0xABE5), (0xABE8, 0xABE8), (0xABED, 0xABED), (0xFB1E, 0xFB1E),
    (0xFBB2, 0xFBC2), (0xFE00, 0xFE0F), (0xFE13, 0xFE13), (0xFE20, 0xFE2F), (0xFE52, 0xFE52),
    (0xFE55, 0xFE55), (0xFEFF, 0xFEFF), (0xFF07, 0xFF07), (0xFF0E, 0xFF0E), (0xFF1A, 0xFF1A),
    (0xFF3E, 0xFF3E), (0xFF40, 0xFF40), (0xFF70, 0xFF70), (0xFF9E, 0xFF9F), (0xFFE3, 0xFFE3),
    (0xFFF9, 0xFFFB), (0x101FD, 0x101FD), (0x102E0, 0x102E0), (0x10376, 0x1037A),
    (0x10780, 0x10785), (0x10787, 0x107B0), (0x107B2, 0x107BA), (0x10A01, 0x10A03),
    (0x10A05, 0x10A06), (0x10A0C, 0x10A0F), (0x10A38, 0x10A3A), (0x10A3F, 0x10A3F),
    (0x10AE5, 0x10AE6), (0x10D24, 0x10D27), (0x10EAB, 0x10EAC), (0x10EFD, 0x10EFF),
    (0x10F46, 0x10F50), (0x10F82, 0x10F85), (0x11001, 0x11001), (0x11038, 0x11046),
    (0x11070, 0x11070), (0x11073, 0x11074), (0x1107F, 0x11081), (0x110B3, 0x110B6),
    (0x110B9, 0x110BA), (0x110BD, 0x110BD), (0x110C2, 0x110C2), (0x110CD, 0x110CD),
    (0x11100, 0x11102), (0x11127, 0x1112B), (0x1112D, 0x11134), (0x11173, 0x11173),
    (0x11180, 0x11181), (0x111B6, 0x111BE), (0x111C9, 0x111CC), (0x111CF, 0x111CF),
    (0x1122F, 0x11231), (0x11234, 0x11234), (0x11236, 0x11237), (0x1123E, 0x1123E),
    (0x11241, 0x11241), (0x112DF, 0x112DF), (0x112E3, 0x112EA), (0x11300, 0x11301),
    (0x1133B, 0x1133C), (0x11340, 0x11340), (0x11366, 0x1136C), (0x11370, 0x11374),
    (0x11438, 0x1143F), (0x11442, 0x11444), (0x11446, 0x11446), (0x1145E, 0x1145E),
    (0x114B3, 0x114B8), (0x114BA, 0x114BA), (0x114BF, 0x114C0), (0x114C2, 0x114C3),
    (0x115B2, 0x115B5), (0x115BC, 0x115BD), (0x115BF, 0x115C0), (0x115DC, 0x115DD),
    (0x11633, 0x1163A), (0x1163D, 0x1163D), (0x1163F, 0x11640), (0x116AB, 0x116AB),
    (0x116AD, 0x116AD), (0x116B0, 0x116B5), (0x116B7, 0x116B7), (0x1171D, 0x1171F),
    (0x11722, 0x11725), (0x11727, 0x1172B), (0x1182F, 0x11837), (0x11839, 0x1183A),
    (0x1193B, 0x1193C), (0x1193E, 0x1193E), (0x11943, 0x11943), (0x119D4, 0x119D7),
    (0x119DA, 0x119DB), (0x119E0, 0x119E0), (0x11A01, 0x11A0A), (0x11A33, 0x11A38),
    (0x11A3B, 0x11A3E), (0x11A47, 0x11A47), (0x11A51, 0x11A56), (0x11A59, 0x11A5B),
    (0x11A8A, 0x11A96), (0x11A98, 0x11A99), (0x11C30, 0x11C36), (0x11C38, 0x11C3D),
    (0x11C3F, 0x11C3F), (0x11C92, 0x11CA7), (0x11CAA, 0x11CB0), (0x11CB2, 0x11CB3),
    (0x11CB5, 0x11CB6), (0x11D31, 0x11D36), (0x11D3A, 0x11D3A), (0x11D3C, 0x11D3D),
    (0x11D3F, 0x11D45), (0x11D47, 0x11D47), (0x11D90, 0x11D91), (0x11D95, 0x11D95),
    (0x11D97, 0x11D97), (0x11EF3, 0x11EF4), (0x11F00, 0x11F01), (0x11F36, 0x11F3A),
    (0x11F40, 0x11F40), (0x11F42, 0x11F42), (0x13430, 0x13440), (0x13447, 0x13455),
    (0x16AF0, 0x16AF4), (0x16B30, 0x16B36), (0x16B40, 0x16B43), (0x16F4F, 0x16F4F),
    (0x16F8F, 0x16F9F), (0x16FE0, 0x16FE1), (0x16FE3, 0x16FE4), (0x1AFF0, 0x1AFF3),
    (0x1AFF5, 0x1AFFB), (0x1AFFD, 0x1AFFE), (0x1BC9D, 0x1BC9E), (0x1BCA0, 0x1BCA3),
    (0x1CF00, 0x1CF2D), (0x1CF30, 0x1CF46), (0x1D167, 0x1D169), (0x1D173, 0x1D182),
    (0x1D185, 0x1D18B), (0x1D1AA, 0x1D1AD), (0x1D242, 0x1D244), (0x1DA00, 0x1DA36),
    (0x1DA3B, 0x1DA6C), (0x1DA75, 0x1DA75), (0x1DA84, 0x1DA84), (0x1DA9B, 0x1DA9F),
    (0x1DAA1, 0x1DAAF), (0x1E000, 0x1E006), (0x1E008, 0x1E018), (0x1E01B, 0x1E021),
    (0x1E023, 0x1E024), (0x1E026, 0x1E02A), (0x1E030, 0x1E06D), (0x1E08F, 0x1E08F),
    (0x1E130, 0x1E13D), (0x1E2AE, 0x1E2AE), (0x1E2EC, 0x1E2EF), (0x1E4EB, 0x1E4EF),
    (0x1E8D0, 0x1E8D6), (0x1E944, 0x1E94B), (0x1F3FB, 0x1F3FF), (0xE0001, 0xE0001),
    (0xE0020, 0xE007F), (0xE0100, 0xE01EF) ]

/-- Does the run hold the code point. -/
def covers (e : LowerRange) (n : Nat) : Bool :=
  e.1 ≤ n && n ≤ e.2.1 && (n - e.1) % e.2.2.1 = 0

/-- The simple lowercase mapping of a code point; a code point outside the
table is its own lowercase. -/
def simpleLowercase (n : Nat) : Nat :=
  match lowercaseTable.find? fun e => covers e n with
  | some e => e.2.2.2 + (n - e.1)
  | none => n

/-- The property `Cased`. -/
def isCased (c : Char) : Bool :=
  casedRanges.any fun r => r.1 ≤ c.toNat && c.toNat ≤ r.2

/-- The property `Case_Ignorable`. -/
def isCaseIgnorable (c : Char) : Bool :=
  caseIgnorableRanges.any fun r => r.1 ≤ c.toNat && c.toNat ≤ r.2

/-- The context test of `Final_Sigma` in one direction: going away from the
sigma over the given characters, case-ignorable ones are passed over, and the
first other one decides, by being cased or not; the end of the text is not a
cased letter. -/
def followedByCased : Str → Bool
  | [] => false
  | c :: rest => if isCaseIgnorable c then followedByCased rest else isCased c

/-- The lowercase of one character of a string; `before` holds the characters
in front of it, the nearest first, `after` the characters behind it. -/
def lowerAt (before : Str) (c : Char) (after : Str) : Str :=
  if c.toNat = 0x130 then [Char.ofNat 0x69, Char.ofNat 0x307]
  else if c.toNat = 0x3A3 ∧ followedByCased before = true ∧ followedByCased after = false then
    [Char.ofNat 0x3C2]
  else [Char.ofNat (simpleLowercase c.toNat)]

/-- The lowercase of the rest of a string, `before` being the characters
already passed, the last one first. -/
def toLowerCaseAux (before : Str) : Str → Str
  | [] => []
  | c :: rest => lowerAt before c rest ++ toLowerCaseAux (c :: before) rest

/-- The method `String.prototype.toLowerCase`. -/
def toLowerCase (s : Str) : Str :=
  toLowerCaseAux [] s

/-- Byte-case-insensitive match of two header names. -/
def nameMatches (a b : Str) : Bool :=
  byteLowercase a = byteLowercase b

/-- HTTP whitespace: tab, line feed, carriage return, space. -/
def isHttpWhitespace (c : Char) : Bool :=
  let n := c.toNat
  n = 9 || n = 10 || n = 13 || n = 32

/-- Normalisation of a header value: leading and trailing HTTP whitespace is
removed. -/
def normalizeValue (v : Str) : Str :=
  ((v.dropWhile isHttpWhitespace).reverse.dropWhile isHttpWhitespace).reverse

namespace Headers

/-- The values of the headers named `name`, in order. -/
def values (h : Headers) (name : Str) : List Str :=
  (h.filter fun p => nameMatches p.1 name).map Prod.snd

/-- The method `get`: `null` when no header has the name, otherwise the values
of all headers with that name, joined by a comma and a space. -/
def get (h : Headers) (name : Str) : Option Str :=
  match values h name with
  | [] => none
  | v :: vs => some (", ".data.intercalate (v :: vs))

/-- The method `append`: the value is normalised, the name takes the casing of
the first header already stored under it, and the header goes to the end. -/
def append (h : Headers) (name value : Str) : Headers :=
  let stored :=
    match h.find? fun p => nameMatches p.1 name with
    | some p => p.1
    | none => name
  h ++ [(stored, normalizeValue value)]

/-- The first header named `name` gets the value, the others with that name
are removed. -/
def setFirst (name value : Str) : Headers → Headers
  | [] => []
  | p :: rest =>
    if nameMatches p.1 name then (p.1, value) :: rest.filter fun q => !nameMatches q.1 name
    else p :: setFirst name value rest

/-- The method `set`: the value is normalised; it replaces the value of the
first header with that name and the other headers with that name are removed,
or the header is added at the end when the name is new. -/
def set (h : Headers) (name value : Str) : Headers :=
  if h.any fun p => nameMatches p.1 name then setFirst name (normalizeValue value) h
  else h ++ [(name, normalizeValue value)]

/-- The names of a header list, byte-lowercased, without repetition, in
ascending order. -/
def sortedNames (h : Headers) : List Str :=
  ((h.map fun p => byteLowercase p.1).dedup).insertionSort fun a b => a ≤ b

/-- What iterating a `Headers` object yields (`entries()`, the "sort and
combine" of Fetch): one pair per lowercased name in ascending order, its value
the combined value of `get`; under the name `set-cookie` one pair per header,
the values kept apart. -/
def entries (h : Headers) : List Header :=
  (sortedNames h).flatMap fun name =>
    if name = "set-cookie".data then (values h name).map fun v => (name, v)
    else
      match get h name with
      | some v => [(name, v)]
      | none => []

/-- Filling a `Headers` object from a sequence of pairs or from the properties
of a record: each one is appended. -/
def fill (init : List (Str × Str)) : Headers :=
  init.foldl (fun h p => append h p.1 p.2) []

/-- The constructor `new Headers(other)` for a `Headers` object `other`: the
new object is filled from the iteration of `other`. -/
def copy (other : Headers) : Headers :=
  fill (entries other)

end Headers

/-! ## Plain objects

An object with string keys and string values is the list of its own
properties in creation order.  (Keys that are array indices, such as a header
named `7`, are enumerated before the others by the engine; such a key matches
no other header name, so no lookup by name in the resulting `Headers` object
depends on that.) -/

/-- A record of strings. -/
abbrev Obj := List (Str × Str)

/-- Definition of a property: an existing key keeps its place and takes the new
value, a new key goes to the end. -/
def Obj.put (o : Obj) (k v : Str) : Obj :=
  if o.any fun p => p.1 = k then o.map fun p => if p.1 = k then (k, v) else p
  else o ++ [(k, v)]

/-- The function `Object.fromEntries`. -/
def Obj.fromEntries (es : List (Str × Str)) : Obj :=
  es.foldl (fun o p => o.put p.1 p.2) []

/-- The object literal `{ ...a, ...b }`. -/
def Obj.spread (a b : Obj) : Obj :=
  b.foldl (fun o p => o.put p.1 p.2) (a.foldl (fun o p => o.put p.1 p.2) [])

/-! ## The helpers `corsHeaders` and `cleanHeaders` -/

/-- The expression `origin || "*"`: the star when `origin` is `null` or empty. -/
def orStar (origin : Option Str) : Str :=
  match origin with
  | some (c :: cs) => c :: cs
  | _ => "*".data

/-- The function `corsHeaders` (lines 91-100). -/
def corsHeaders (origin : Option Str) : Obj :=
  [ ("Access-Control-Allow-Origin".data, orStar origin),
    ("Access-Control-Allow-Headers".data, "*".data),
    ("Access-Control-Allow-Methods".data, "GET,POST,PUT,PATCH,DELETE,OPTIONS".data),
    ("Access-Control-Allow-Credentials".data, "true".data),
    ("Vary".data, "Origin".data),
    ("Timing-Allow-Origin".data, orStar origin) ]

/-- The six names `corsHeaders` sets. -/
def corsNames : List Str :=
  [ "Access-Control-Allow-Origin".data, "Access-Control-Allow-Headers".data,
    "Access-Control-Allow-Methods".data, "Access-Control-Allow-Credentials".data,
    "Vary".data, "Timing-Allow-Origin".data ]

/-- The array literal of line 105. -/
def denyList : List Str :=
  [ "host".data, "origin".data, "referer".data, "cf-connecting-ip".data,
    "x-forwarded-for".data ]

/-- The function `cleanHeaders` (lines 102-110): a fresh `Headers` object
that receives, by `set`, every iterated pair whose lowercased name is not in
the array. -/
def cleanHeaders (headers : Headers) : Headers :=
  (Headers.entries headers).foldl
    (fun out p => if denyList.contains (toLowerCase p.1) then out else Headers.set out p.1 p.2) []

/-! ## Requests, responses and the platform -/

/-- A body: a string given to the `Response` constructor, or a byte stream. -/
inductive Body where
  | text (s : Str)
  | stream (bytes : List Nat)
  deriving DecidableEq, Repr

/-- A WebSocket handle. -/
abbrev Socket := Nat

/-- The inbound request, with `new URL(req.url)` already taken apart:
`pathname` is `url.pathname`, `searchParams` the decoded pairs of
`url.searchParams`. -/
structure Request where
  method : Str
  pathname : Str
  searchParams : List (Str × Str)
  headers : Headers
  body : Option Body
  redirect : Str
  deriving DecidableEq, Repr

/-- What the worker hands to the platform `fetch`: the URL and the members of
the init object. -/
structure UpstreamRequest where
  url : Str
  method : Str
  headers : Headers
  body : Option Body
  redirect : Str
  deriving DecidableEq, Repr

/-- The response of the platform `fetch`; `webSocket` is set when the upstream
granted the upgrade. -/
structure UpstreamResponse where
  status : Nat
  headers : Headers
  body : Option Body
  webSocket : Option Socket
  deriving DecidableEq, Repr

/-- A response built by the worker. -/
structure Response where
  status : Nat
  body : Option Body
  headers : Headers
  webSocket : Option Socket
  deriving DecidableEq, Repr

/-- The capabilities the worker takes from its host.  `parseURL s` is
`new URL(s).toString()`, `resolveURL loc base` is
`new URL(loc, base).toString()`, both `none` when the constructor throws;
`fetch` is the global `fetch`, an error when its promise rejects;
`socketPair` is `Object.values(new WebSocketPair())`. -/
structure Platform where
  parseURL : Str → Option Str
  resolveURL : Str → Str → Option Str
  fetch : UpstreamRequest → Except JsError UpstreamResponse
  socketPair : Socket × Socket

/-- The statuses the `Response` constructor accepts: 200 to 599 without a
socket, and 101, no other, with the `webSocket` member of the Workers
runtime. -/
def statusAccepted (status : Nat) (webSocket : Option Socket) : Bool :=
  match webSocket with
  | none => 200 ≤ status && status ≤ 599
  | some _ => status = 101

/-- The null body statuses of Fetch. -/
def isNullBodyStatus (status : Nat) : Bool :=
  status = 101 || status = 103 || status = 204 || status = 205 || status = 304

/-- The response a successful `new Response(body, { status, headers, webSocket })`
creates: the headers are filled from the record, and a string body brings the
content type of plain text when the record names none. -/
def initializeResponse (body : Option Body) (status : Nat) (headers : Obj)
    (webSocket : Option Socket) : Response :=
  let h := Headers.fill headers
  let h :=
    match body with
    | some (.text _) =>
      if (Headers.get h "content-type".data).isSome then h
      else Headers.append h "Content-Type".data "text/plain;charset=UTF-8".data
    | _ => h
  { status := status, body := body, headers := h, webSocket := webSocket }

/-- The constructor `new Response(body, { status, headers, webSocket })` (Fetch,
"initialize a response"): a status that is not accepted throws a `RangeError`,
a body given together with a null body status throws a `TypeError`, and
otherwise the response is created.  (The Workers runtime lets a body of known
length zero pass the second check and drops it; the handler gives a body and a
null body status together only when `fetch` delivered both.) -/
def newResponse (body : Option Body) (status : Nat) (headers : Obj) (webSocket : Option Socket) :
    Except JsError Response :=
  if statusAccepted status webSocket = false then .error .rangeError
  else if (body.isSome && isNullBodyStatus status) = true then .error .typeError
  else .ok (initializeResponse body status headers webSocket)

/-- What a call of the handler did: the requests it issued through the
platform `fetch`, in order; the response it returned, or the exception it ended
with; and, when it set up a WebSocket relay, the two sockets it accepted and
wired to each other (the server end of the pair and the upstream socket). -/
structure Outcome where
  upstream : List UpstreamRequest
  result : Except JsError Response
  relay : Option (Socket × Socket)
  deriving DecidableEq

/-- The handler returns what a `new Response` gave (the response, or the
exception of the constructor) without having called `fetch`. -/
def respond (r : Except JsError Response) : Outcome :=
  { upstream := [], result := r, relay := none }

/-! ## The handler -/

/-- The method `String.prototype.replace` with a string pattern: the first
occurrence is replaced. -/
def replaceFirst (pat rep : Str) : Str → Str
  | [] => if pat = [] then rep else []
  | c :: rest =>
    if pat.isPrefixOf (c :: rest) then rep ++ (c :: rest).drop pat.length
    else c :: replaceFirst pat rep rest

/-- The method `url.searchParams.get`: the value of the first pair with the
name, `null` when there is none. -/
def searchParamsGet (ps : List (Str × Str)) (name : Str) : Option Str :=
  (ps.find? fun p => p.1 = name).map Prod.snd

/-- Lines 19-32, the target from the query or from the path: `.error r` is the
early return of line 29, with what its `new Response` gave, `.ok none` is
`target` left `undefined`. -/
def resolveTarget (req : Request) : Except (Except JsError Response) (Option Str) :=
  if "/proxy".data.isPrefixOf req.pathname then
    match searchParamsGet req.searchParams "url".data with
    | some (c :: cs) => .ok (some (c :: cs))
    | _ =>
      match decodeTarget (replaceFirst "/proxy/".data [] req.pathname) with
      | .ok t => .ok (some t)
      | .error _ => .error (newResponse (some (.text "Invalid encoded URL".data)) 400 [] none)
  else .ok none

/-- Line 47, what the WebSocket branch hands to `fetch`: the target and, as
init object, the inbound request itself. -/
def webSocketInit (req : Request) (targetUrl : Str) : UpstreamRequest :=
  { url := targetUrl, method := req.method, headers := req.headers, body := req.body,
    redirect := req.redirect }

/-- Lines 46-61, the WebSocket branch. -/
def relayWebSocket (P : Platform) (req : Request) (targetUrl : Str) : Outcome :=
  match P.fetch (webSocketInit req targetUrl) with
  | .error e => { upstream := [webSocketInit req targetUrl], result := .error e, relay := none }
  | .ok upstream =>
    match upstream.webSocket with
    | none =>
      { upstream := [webSocketInit req targetUrl],
        result := newResponse (some (.text "WS upgrade failed".data)) 502 [] none,
        relay := none }
    | some ws =>
      { upstream := [webSocketInit req targetUrl],
        result := newResponse none 101 [] (some P.socketPair.1),
        relay := some (P.socketPair.2, ws) }

/-- Lines 71-79: the copy of the upstream headers, with a non-empty `location`
replaced by its proxied form unless resolving it throws. -/
def rewriteLocation (P : Platform) (targetUrl : Str) (resHeaders : Headers) : Headers :=
  let headers := Headers.copy resHeaders
  match Headers.get headers "location".data with
  | some (c :: cs) =>
    match P.resolveURL (c :: cs) targetUrl with
    | some loc =>
      match encodeLocation loc with
      | .ok encoded => Headers.set headers "location".data ("/proxy/".data ++ encoded)
      | .error _ => headers
    | none => headers
  | _ => headers

/-- Lines 64-69, what the HTTP branch hands to `fetch`: the target and the
init object with the method, the cleaned headers, the body unless the method
is `GET` or `HEAD`, and `redirect: "manual"`. -/
def httpInit (req : Request) (targetUrl : Str) : UpstreamRequest :=
  { url := targetUrl, method := req.method, headers := cleanHeaders req.headers,
    body := if req.method = "GET".data ∨ req.method = "HEAD".data then none else req.body,
    redirect := "manual".data }

/-- Lines 81-87, the record of the response headers:
`{ ...Object.fromEntries(headers), ...corsHeaders(origin) }`. -/
def responseHeaders (headers : Headers) (origin : Option Str) : Obj :=
  Obj.spread (Obj.fromEntries (Headers.entries headers)) (corsHeaders origin)

/-- Lines 64-87, the HTTP branch. -/
def relayHttp (P : Platform) (req : Request) (targetUrl : Str) : Outcome :=
  match P.fetch (httpInit req targetUrl) with
  | .error e => { upstream := [httpInit req targetUrl], result := .error e, relay := none }
  | .ok res =>
    { upstream := [httpInit req targetUrl],
      result := newResponse res.body res.status
        (responseHeaders (rewriteLocation P targetUrl res.headers)
          (Headers.get req.headers "Origin".data)) none,
      relay := none }

/-- The exported handler `fetch(req, env, ctx)` (lines 2-88). -/
def fetch (P : Platform) (req : Request) : Outcome :=
  if req.pathname = "/".data ∨ req.pathname = "/health".data then
    respond (newResponse (some (.text "OK".data)) 200 [] none)
  else if req.method = "OPTIONS".data then
    respond (newResponse none 204 (corsHeaders (Headers.get req.headers "Origin".data)) none)
  else
    match resolveTarget req with
    | .error r => respond r
    | .ok none => respond (newResponse (some (.text "Missing target URL".data)) 400 [] none)
    | .ok (some []) => respond (newResponse (some (.text "Missing target URL".data)) 400 [] none)
    | .ok (some (c :: cs)) =>
      match P.parseURL (c :: cs) with
      | none => respond (newResponse (some (.text "Invalid target URL".data)) 400 [] none)
      | some targetUrl =>
        if (Headers.get req.headers "Upgrade".data).map toLowerCase = some "websocket".data then
          relayWebSocket P req targetUrl
        else relayHttp P req targetUrl

/-! ## The WebSocket relay (lines 51-58)

The relay holds two sockets, both accepted: the server end of the new pair,
which faces the client (the client end goes back in the 101 response), and
the socket of the upstream response.  Lines 55-58 install one `onmessage` and
one `onclose` handler on each.  An event is what the platform passes to such a
handler; what the handler does is one method call on the other socket.  What
the platform does with that call is not part of the model. -/

/-- The data of a message: a string for a text frame, bytes for a binary one. -/
inductive MessageData where
  | text (s : Str)
  | binary (bytes : List Nat)
  deriving DecidableEq, Repr

/-- The two sockets of the relay: `server` is the relay's end of the pair, the
client-side socket; `upstream` is `upstream.webSocket`. -/
inductive Side where
  | server
  | upstream
  deriving DecidableEq, Repr

/-- An event delivered to a handler of the relay: a message with `msg.data`, or
a close with `evt.code` and `evt.reason`. -/
inductive SocketEvent where
  | message (data : MessageData)
  | close (code : Nat) (reason : Str)
  deriving DecidableEq, Repr

/-- A method call on a socket: `socket.send(data)` or
`socket.close(code, reason)`. -/
inductive SocketCall where
  | send (socket : Socket) (data : MessageData)
  | close (socket : Socket) (code : Nat) (reason : Str)
  deriving DecidableEq, Repr

/-- The socket a call is made on. -/
def SocketCall.target : SocketCall → Socket
  | .send socket _ => socket
  | .close socket _ _ => socket

/-- The four handlers of lines 55-58, for the relay between the sockets
`server` and `ws`:
`server.onmessage = msg => ws.send(msg.data)`,
`ws.onmessage = msg => server.send(msg.data)`,
`server.onclose = evt => ws.close(evt.code, evt.reason)`,
`ws.onclose = evt => server.close(evt.code, evt.reason)`. -/
def relayHandler (server ws : Socket) : Side → SocketEvent → SocketCall
  | .server, .message data => .send ws data
  | .upstream, .message data => .send server data
  | .server, .close code reason => .close ws code reason
  | .upstream, .close code reason => .close server code reason

/-- The calls the relay makes for a sequence of events, each event given with
the socket it occurs on. -/
def relayTrace (server ws : Socket) (events : List (Side × SocketEvent)) : List SocketCall :=
  events.map fun e => relayHandler server ws e.1 e.2

/-! ## Specification-side definitions -/

/-- Base64 without padding over the url-safe alphabet (RFC 4648, section 5):
the sextets of the bytes, the last group filled with zero bits, each written
with `A`..`Z`, `a`..`z`, `0`..`9`, `-`, `_`. -/
def base64UrlChar (n : Nat) : Char :=
  "ABCDEFGHIJKLMNOPQRSTUVWXYZabcdefghijklmnopqrstuvwxyz0123456789-_".data.getD n 'A'

/-- Url-safe base64 of a byte sequence, without padding. -/
def base64Url : List Nat → Str
  | [] => []
  | [a] => [base64UrlChar (a / 4), base64UrlChar (a % 4 * 16)]
  | [a, b] =>
    [base64UrlChar (a / 4), base64UrlChar (a % 4 * 16 + b / 16), base64UrlChar (b % 16 * 4)]
  | a :: b :: c :: rest =>
    base64UrlChar (a / 4) :: base64UrlChar (a % 4 * 16 + b / 16) ::
      base64UrlChar (b % 16 * 4 + c / 64) :: base64UrlChar (c % 64) :: base64Url rest

/-- Standard base64 of a byte sequence with `+` mapped to `-`, `/` mapped to
`_` and the trailing `=` removed. -/
def urlSafeBase64 (bytes : List Nat) : Str :=
  stripTrailingEq (replaceAll '/' '_' (replaceAll '+' '-' (base64Encode bytes)))

/-- The characters allowed in an encoded path: `A`..`Z`, `a`..`z`, `0`..`9`,
`-` and `_`. -/
def isUrlSafeChar (c : Char) : Bool :=
  let n := c.toNat
  (65 ≤ n && n ≤ 90) || (97 ≤ n && n ≤ 122) || (48 ≤ n && n ≤ 57) || n = 45 || n = 95

/-- Number of `=` that pad the base64 of `n` bytes. -/
def padLength (n : Nat) : Nat :=
  (3 - n % 3) % 3

/-- The values an object or a list of pairs holds under exactly the key `k`. -/
def exactValues (o : List (Str × Str)) (k : Str) : List Str :=
  (o.filter fun p => p.1 = k).map Prod.snd

/-- An event as a call on a socket carrying the same payload: a message with
data `d` as `send(d)`, a close with code `c` and reason `r` as `close(c, r)`. -/
def SocketEvent.replayOn (socket : Socket) : SocketEvent → SocketCall
  | .message data => .send socket data
  | .close code reason => .close socket code reason

/-- The text before the first `://` of a string and the text after it. -/
def splitScheme : Str → Option (Str × Str)
  | [] => none
  | c :: rest =>
    if "://".data.isPrefixOf (c :: rest) then some ([], (c :: rest).drop 3)
    else
      match splitScheme rest with
      | some (scheme, tail) => some (c :: scheme, tail)
      | none => none

/-- An absolute URL "including a scheme and a host", as the specification
words it: a non-empty scheme, then `://`, then a non-empty host (the text up to
the next `/`, `?` or `#`). -/
def hasSchemeAndHost (s : Str) : Bool :=
  match splitScheme s with
  | some (scheme, tail) =>
    !scheme.isEmpty && !(tail.takeWhile fun c => c != '/' && c != '?' && c != '#').isEmpty
  | none => false

/-- The KELVIN SIGN `U+212A` read as the capital letter `K`, every other
character as itself. -/
def kelvinAsK (c : Char) : Char :=
  if c.toNat = 0x212A then 'K' else c

/-- The sextets of a byte sequence: three bytes give four, a last group of one
or two bytes gives two or three, its spare bits zero. -/
def sextets : List Nat → List Nat
  | [] => []
  | [a] => [a / 4, a % 4 * 16]
  | [a, b] => [a / 4, a % 4 * 16 + b / 16, b % 16 * 4]
  | a :: b :: c :: rest =>
    a / 4 :: (a % 4 * 16 + b / 16) :: (b % 16 * 4 + c / 64) :: c % 64 :: sextets rest

/-! ## Sample inputs -/

/-- A host whose URL parser accepts the strings that start with `https://` and
returns them as they are, resolves `/b` against `https://example.com/a`, and
whose `fetch` gives the same answer to every request. -/
def samplePlatform (answer : Except JsError UpstreamResponse) : Platform :=
  { parseURL := fun s => if "https://".data.isPrefixOf s then some s else none
    resolveURL := fun loc base =>
      if loc = "/b".data ∧ base = "https://example.com/a".data then
        some "https://example.com/b".data
      else none
    fetch := fun _ => answer
    socketPair := (1, 2) }

/-- A request for `/proxy?url=https://example.com/a` with the given method and
headers and no body. -/
def sampleRequest (method : Str) (headers : Headers) : Request :=
  { method := method, pathname := "/proxy".data,
    searchParams := [("url".data, "https://example.com/a".data)],
    headers := headers, body := none, redirect := "manual".data }

/-- An upstream response with status 200, the given headers and an empty body. -/
def sampleAnswer (headers : Headers) : UpstreamResponse :=
  { status := 200, headers := headers, body := some (.stream []), webSocket := none }

/-- An upstream response with the given status, headers and body, and no
socket. -/
def answerWith (status : Nat) (headers : Headers) (body : Option Body) : UpstreamResponse :=
  { status := status, headers := headers, body := body, webSocket := none }

/-- A host whose URL parser answers as the parser of the URL Standard does on a
few strings: `https://example.com` gets its path `/`, the character `ÿ` in a
path is escaped as the UTF-8 bytes `%C3%BF`, `mailto:a@example.com` (a scheme,
no host) and `https://example.com/a?x=1` are returned unchanged; on other
strings it accepts what starts with `https://`, unchanged.  Its `fetch` gives
the same answer to every request. -/
def tablePlatform (answer : Except JsError UpstreamResponse) : Platform :=
  { parseURL := fun s =>
      if s = "https://example.com".data then some "https://example.com/".data
      else if s = "https://example.com/".data ++ [Char.ofNat 255] then
        some "https://example.com/%C3%BF".data
      else if s = "mailto:a@example.com".data then some "mailto:a@example.com".data
      else if "https://".data.isPrefixOf s then some s
      else none
    resolveURL := fun _ _ => none
    fetch := fun _ => answer
    socketPair := (1, 2) }

/-- A request with the given method, path, query pairs and headers, and a body. -/
def requestFor (method pathname : Str) (searchParams : List (Str × Str)) (headers : Headers) :
    Request :=
  { method := method, pathname := pathname, searchParams := searchParams, headers := headers,
    body := some (.stream [1, 2, 3]), redirect := "manual".data }

/-! # Theorems -/

/-! ## Known values of the platform functions -/

theorem utf8Bytes_samples :
    utf8Bytes "aé€😀".data = [0x61, 0xC3, 0xA9, 0xE2, 0x82, 0xAC, 0xF0, 0x9F, 0x98, 0x80] := by
  decide

theorem encodeURIComponent_samples :
    encodeURIComponent "a b/é?x=1&y=(2)".data = "a%20b%2F%C3%A9%3Fx%3D1%26y%3D(2)".data ∧
      encodeURIComponent "100%".data = "100%25".data := by
  decide

theorem unescape_samples :
    unescape "%41%u0042%zz%4".data = [65, 66, 37, 122, 122, 37, 52] ∧
      unescape "%C3%A9".data = [0xC3, 0xA9] := by
  decide

theorem decodeURIComponent_samples :
    decodeURIComponent "a%20b%2Fc".data = .ok "a b/c".data ∧
      decodeURIComponent "%C3%A9%E2%82%AC%F0%9F%98%80".data = .ok "é€😀".data ∧
      decodeURIComponent "100%".data = .error .uriError ∧
      decodeURIComponent "%zz".data = .error .uriError ∧
      decodeURIComponent "%C3".data = .error .uriError ∧
      decodeURIComponent "%C3x".data = .error .uriError ∧
      decodeURIComponent "%C0%80".data = .error .uriError ∧
      decodeURIComponent "%ED%A0%80".data = .error .uriError ∧
      decodeURIComponent "%FF".data = .error .uriError := by
  decide

theorem btoa_samples :
    btoa [] = .ok [] ∧ btoa [104] = .ok "aA==".data ∧ btoa [104, 105] = .ok "aGk=".data ∧
      btoa [104, 105, 33] = .ok "aGkh".data ∧ btoa [251, 255] = .ok "+/8=".data ∧
      btoa [8364] = .error .invalidCharacterError := by
  decide

theorem atob_samples :
    atob "aGk=".data = .ok "hi".data ∧ atob "aGk".data = .ok "hi".data ∧
      atob "aA==".data = .ok "h".data ∧ atob "aA".data = .ok "h".data ∧
      atob " a G k h ".data = .ok "hi!".data ∧ atob "".data = .ok [] ∧
      atob "a".data = .error .invalidCharacterError ∧
      atob "aGkha".data = .error .invalidCharacterError ∧
      atob "aG-k".data = .error .invalidCharacterError ∧
      atob "aGk==".data = .error .invalidCharacterError := by
  decide

theorem headers_samples :
    Headers.entries [("X-B".data, "1".data), ("Set-Cookie".data, "a=1".data),
        ("Accept".data, "text/html".data), ("x-b".data, "2".data),
        ("set-cookie".data, "b=2".data)] =
      [("accept".data, "text/html".data), ("set-cookie".data, "a=1".data),
        ("set-cookie".data, "b=2".data), ("x-b".data, "1, 2".data)] ∧
      Headers.set [("X-B".data, "1".data), ("Accept".data, "text/html".data),
        ("x-b".data, "2".data)] "x-b".data " 3 ".data =
      [("X-B".data, "3".data), ("Accept".data, "text/html".data)] ∧
      Headers.append [("X-B".data, "1".data)] "x-b".data "2".data =
      [("X-B".data, "1".data), ("X-B".data, "2".data)] := by
  decide

set_option maxRecDepth 100000 in
theorem toLowerCase_samples :
    toLowerCase "WebSocket".data = "websocket".data ∧
      toLowerCase "websoc\u212Aet".data = "websocket".data ∧
      toLowerCase "\u0130".data = "i\u0307".data ∧
      toLowerCase "ΟΔΟΣ".data = "οδος".data ∧
      toLowerCase "Σ".data = "σ".data ∧
      toLowerCase "ΑΣΑ".data = "ασα".data ∧
      toLowerCase "ΑΣ. Σ".data = "ας. σ".data ∧
      toLowerCase "A\u02B0Σ".data = "a\u02B0ς".data ∧
      toLowerCase "1Σ".data = "1σ".data ∧
      toLowerCase "ÀÞ×ßŸ".data = "àþ×ßÿ".data ∧
      toLowerCase "ǅⒶ𐐀".data = "ǆⓐ𐐨".data ∧
      toLowerCase "\u017F".data = "\u017F".data := by
  decide

theorem newResponse_samples :
    newResponse (some (.text "OK".data)) 200 [] none =
        .ok { status := 200, body := some (.text "OK".data),
              headers := [("Content-Type".data, "text/plain;charset=UTF-8".data)],
              webSocket := none } ∧
      newResponse none 204 [] none =
        .ok { status := 204, body := none, headers := [], webSocket := none } ∧
      newResponse none 101 [] (some 1) =
        .ok { status := 101, body := none, headers := [], webSocket := some 1 } ∧
      newResponse none 999 [] none = .error .rangeError ∧
      newResponse none 199 [] none = .error .rangeError ∧
      newResponse none 101 [] none = .error .rangeError ∧
      newResponse none 200 [] (some 1) = .error .rangeError ∧
      newResponse (some (.text "x".data)) 204 [] none = .error .typeError ∧
      newResponse (some (.stream [7])) 304 [] none = .error .typeError := by
  decide

theorem replaceFirst_samples :
    replaceFirst "/proxy/".data [] "/proxy/abc".data = "abc".data ∧
      replaceFirst "/proxy/".data [] "/proxy".data = "/proxy".data ∧
      replaceFirst "/proxy/".data [] "/proxy/a/proxy/b".data = "a/proxy/b".data ∧
      replaceFirst "/proxy/".data [] "/proxyx/proxy/b".data = "/proxyxb".data := by
  decide

theorem hasSchemeAndHost_samples :
    hasSchemeAndHost "https://example.com/a?x=1".data = true ∧
      hasSchemeAndHost "wss://example.com".data = true ∧
      hasSchemeAndHost "https:///a".data = false ∧
      hasSchemeAndHost "://example.com".data = false ∧
      hasSchemeAndHost "example.com/a".data = false ∧
      hasSchemeAndHost "mailto:a@example.com".data = false := by
  decide

/-! ## Characters -/

theorem char_toNat_lt (c : Char) : c.toNat < 0x110000 := by
  have h := c.valid
  simp only [Char.toNat]
  rcases h with h | ⟨_, h⟩
  · exact Nat.lt_trans h (by decide)
  · exact h

theorem toUInt8_toNat (v : UInt32) : (v.toUInt8).toNat = v.toNat % 256 := by
  simp [UInt32.toUInt8, Nat.toUInt8, UInt8.ofNat, UInt8.toNat]

theorem uint8_or_toNat (a b : UInt8) : (a ||| b).toNat = a.toNat ||| b.toNat := rfl

theorem uint32_shiftRight_toNat (a : UInt32) (k : Nat) (hk : k < 32) :
    (a >>> UInt32.ofNat k).toNat = a.toNat / 2 ^ k := by
  show (a.toBitVec >>> (UInt32.ofNat k % 32).toBitVec).toNat = _
  have h : (UInt32.ofNat k % 32).toBitVec.toNat = k := by
    show (UInt32.ofNat k % 32).toNat = k
    rw [UInt32.toNat_mod, UInt32.toNat_ofNat_of_lt (Nat.lt_trans hk (by decide))]
    exact Nat.mod_eq_of_lt hk
  rw [BitVec.ushiftRight_eq', BitVec.toNat_ushiftRight, h, Nat.shiftRight_eq_div_pow]
  rfl

theorem or_high_bits : (∀ y, y < 64 → y ||| 0x80 = 0x80 + y) ∧ (∀ y, y < 32 → y ||| 0xC0 = 0xC0 + y) ∧
    (∀ y, y < 16 → y ||| 0xE0 = 0xE0 + y) ∧ (∀ y, y < 8 → y ||| 0xF0 = 0xF0 + y) := by
  decide

theorem masked_or_toNat (a : UInt8) (n : Nat) (t : UInt8) (m : UInt8) (hm : m.toNat = 2 ^ n - 1) :
    (a &&& m ||| t).toNat = (a.toNat % 2 ^ n) ||| t.toNat := by
  rw [uint8_or_toNat, UInt8.and_toNat, hm, Nat.and_pow_two_sub_one_eq_mod]

theorem contByte_toNat (x : UInt32) :
    (x.toUInt8 &&& 0x3f ||| 0x80).toNat = 0x80 + x.toNat % 64 := by
  rw [masked_or_toNat x.toUInt8 6 0x80 0x3f rfl, toUInt8_toNat]
  have e : x.toNat % 256 % 2 ^ 6 = x.toNat % 64 := by omega
  rw [e]
  exact or_high_bits.1 _ (Nat.mod_lt _ (by decide))

theorem leadByte2_toNat (x : UInt32) :
    (x.toUInt8 &&& 0x1f ||| 0xc0).toNat = 0xC0 + x.toNat % 32 := by
  rw [masked_or_toNat x.toUInt8 5 0xc0 0x1f rfl, toUInt8_toNat]
  have e : x.toNat % 256 % 2 ^ 5 = x.toNat % 32 := by omega
  rw [e]
  exact or_high_bits.2.1 _ (Nat.mod_lt _ (by decide))

theorem leadByte3_toNat (x : UInt32) :
    (x.toUInt8 &&& 0x0f ||| 0xe0).toNat = 0xE0 + x.toNat % 16 := by
  rw [masked_or_toNat x.toUInt8 4 0xe0 0x0f rfl, toUInt8_toNat]
  have e : x.toNat % 256 % 2 ^ 4 = x.toNat % 16 := by omega
  rw [e]
  exact or_high_bits.2.2.1 _ (Nat.mod_lt _ (by decide))

theorem leadByte4_toNat (x : UInt32) :
    (x.toUInt8 &&& 0x07 ||| 0xf0).toNat = 0xF0 + x.toNat % 8 := by
  rw [masked_or_toNat x.toUInt8 3 0xf0 0x07 rfl, toUInt8_toNat]
  have e : x.toNat % 256 % 2 ^ 3 = x.toNat % 8 := by omega
  rw [e]
  exact or_high_bits.2.2.2 _ (Nat.mod_lt _ (by decide))

/-- The UTF-8 transformation of the model is the one of the Lean core library. -/
theorem utf8Encode_eq_core (c : Char) :
    utf8Encode c = (String.utf8EncodeChar c).map UInt8.toNat := by
  have hlt := char_toNat_lt c
  have hle : ∀ k : Nat, k < 4294967296 → (c.val ≤ UInt32.ofNat k ↔ c.toNat ≤ k) := by
    intro k hk
    rw [UInt32.le_def, BitVec.le_def]
    show c.val.toNat ≤ (UInt32.ofNat k).toNat ↔ _
    rw [UInt32.toNat_ofNat_of_lt hk]
    rfl
  have hle1 : c.val ≤ 0x7f ↔ c.toNat ≤ 0x7f := hle 0x7f (by decide)
  have hle2 : c.val ≤ 0x7ff ↔ c.toNat ≤ 0x7ff := hle 0x7ff (by decide)
  have hle3 : c.val ≤ 0xffff ↔ c.toNat ≤ 0xffff := hle 0xffff (by decide)
  have h6 : (c.val >>> 6).toNat = c.toNat / 2 ^ 6 := uint32_shiftRight_toNat c.val 6 (by decide)
  have h12 : (c.val >>> 12).toNat = c.toNat / 2 ^ 12 :=
    uint32_shiftRight_toNat c.val 12 (by decide)
  have h18 : (c.val >>> 18).toNat = c.toNat / 2 ^ 18 :=
    uint32_shiftRight_toNat c.val 18 (by decide)
  have hv : c.val.toNat = c.toNat := rfl
  unfold utf8Encode String.utf8EncodeChar
  simp only [hle1, hle2, hle3]
  by_cases h1 : c.toNat < 0x80
  · rw [if_pos h1, if_pos (show c.toNat ≤ 127 by omega)]
    simp only [List.map_cons, List.map_nil, toUInt8_toNat, hv]
    congr 1
    omega
  · rw [if_neg h1, if_neg (show ¬ c.toNat ≤ 127 by omega)]
    by_cases h2 : c.toNat < 0x800
    · rw [if_pos h2, if_pos (show c.toNat ≤ 2047 by omega)]
      simp only [List.map_cons, List.map_nil, leadByte2_toNat, contByte_toNat, h6, hv]
      congr 2
      omega
    · rw [if_neg h2, if_neg (show ¬ c.toNat ≤ 2047 by omega)]
      by_cases h3 : c.toNat < 0x10000
      · rw [if_pos h3, if_pos (show c.toNat ≤ 65535 by omega)]
        simp only [List.map_cons, List.map_nil, leadByte3_toNat, contByte_toNat, h6, h12, hv]
        congr 2
        · omega
      · rw [if_neg h3, if_neg (show ¬ c.toNat ≤ 65535 by omega)]
        simp only [List.map_cons, List.map_nil, leadByte4_toNat, contByte_toNat, h6, h12, h18, hv]
        congr 2
        · omega

theorem utf8Bytes_eq_core (s : Str) :
    utf8Bytes s = (s.flatMap String.utf8EncodeChar).map UInt8.toNat := by
  unfold utf8Bytes
  induction s with
  | nil => rfl
  | cons c s ih => rw [List.flatMap_cons, List.flatMap_cons, List.map_append, ih, utf8Encode_eq_core]

theorem hexVal_hexDigit : ∀ n, n < 16 → hexVal (hexDigit n) = some n := by
  decide

theorem hexDigit_ne_u : ∀ n, n < 16 → hexDigit n ≠ 'u' := by
  decide

theorem utf8Encode_lt (c : Char) : ∀ b ∈ utf8Encode c, b < 256 := by
  have h := char_toNat_lt c
  intro b hb
  unfold utf8Encode at hb
  simp only at hb
  split_ifs at hb <;> simp at hb <;> omega

theorem utf8Bytes_lt (s : Str) : ∀ b ∈ utf8Bytes s, b < 256 := by
  intro b hb
  simp only [utf8Bytes, List.mem_flatMap] at hb
  obtain ⟨c, _, hc⟩ := hb
  exact utf8Encode_lt c b hc

/-! ## `unescape` undoes the escapes of `encodeURIComponent` -/

theorem hexU4_of_ne (c : Char) (rest : Str) (h : c ≠ 'u') : hexU4 (c :: rest) = none := by
  unfold hexU4
  split
  · next heq =>
    simp only [List.cons.injEq] at heq
    rw [if_neg (by rw [← heq.1]; exact h)]
  · rfl

theorem unescapeAux_percentEscape (b : Nat) (hb : b < 256) (rest : Str) :
    unescapeAux 0 (percentEscape b ++ rest) = b :: unescapeAux 0 rest := by
  have h1 : b / 16 < 16 := by omega
  have h2 : b % 16 < 16 := by omega
  have hb' : 16 * (b / 16) + b % 16 = b := by omega
  simp [percentEscape, unescapeAux, hexU4_of_ne _ _ (hexDigit_ne_u _ h1), hexByte,
    hexVal_hexDigit _ h1, hexVal_hexDigit _ h2, hb']

theorem unescapeAux_escapes (bs : List Nat) (hbs : ∀ b ∈ bs, b < 256) (rest : Str) :
    unescapeAux 0 (bs.flatMap percentEscape ++ rest) = bs ++ unescapeAux 0 rest := by
  induction bs with
  | nil => simp
  | cons b bs ih =>
    rw [List.flatMap_cons, List.append_assoc, unescapeAux_percentEscape b
      (hbs b (List.mem_cons_self _ _)), ih fun x hx => hbs x (List.mem_cons_of_mem _ hx)]
    rfl

theorem isUnreserved_utf8 (c : Char) (h : isUnreserved c = true) :
    c ≠ '%' ∧ utf8Encode c = [c.toNat] := by
  constructor
  · rintro rfl
    exact absurd h (by decide)
  · have : c.toNat < 0x80 := by
      simp only [isUnreserved, Bool.or_eq_true, Bool.and_eq_true, decide_eq_true_eq] at h
      omega
    simp [utf8Encode, this]

theorem unescape_encodeURIComponent (s : Str) :
    unescape (encodeURIComponent s) = utf8Bytes s := by
  unfold unescape encodeURIComponent utf8Bytes
  induction s with
  | nil => rfl
  | cons c s ih =>
    rw [List.flatMap_cons, List.flatMap_cons, ← ih]
    by_cases hc : isUnreserved c = true
    · obtain ⟨hne, hu⟩ := isUnreserved_utf8 c hc
      simp [hc, hu, unescapeAux, hne]
    · rw [if_neg hc]
      exact unescapeAux_escapes _ (utf8Encode_lt c) _

/-! ## The shape of a base64 text -/

theorem urlChar_of_base64Char (n : Nat) :
    (fun c => if c = '/' then '_' else c) ((fun c => if c = '+' then '-' else c) (base64Char n)) =
      base64UrlChar n := by
  by_cases h : n < 64
  · revert n
    decide
  · have h64 : 64 ≤ n := Nat.le_of_not_lt h
    have h1 : base64Char n = 'A' := List.getD_eq_default _ _ (by simpa [base64Alphabet] using h64)
    have h2 : base64UrlChar n = 'A' := List.getD_eq_default _ _ (by simpa using h64)
    rw [h1, h2]
    decide

theorem isUrlSafeChar_base64UrlChar (n : Nat) : isUrlSafeChar (base64UrlChar n) = true := by
  by_cases h : n < 64
  · revert n
    decide
  · have h2 : base64UrlChar n = 'A' :=
      List.getD_eq_default _ _ (by simpa using Nat.le_of_not_lt h)
    rw [h2]
    decide

theorem base64Encode_replaced (bs : List Nat) :
    replaceAll '/' '_' (replaceAll '+' '-' (base64Encode bs)) =
      base64Url bs ++ List.replicate (padLength bs.length) '=' := by
  induction bs using base64Encode.induct with
  | case1 => rfl
  | case2 a =>
    simp only [base64Encode, replaceAll, List.map_cons, List.map_nil, base64Url,
      urlChar_of_base64Char]
    rfl
  | case3 a b =>
    simp only [base64Encode, replaceAll, List.map_cons, List.map_nil, base64Url,
      urlChar_of_base64Char]
    rfl
  | case4 a b c rest ih =>
    have hp : padLength (a :: b :: c :: rest).length = padLength rest.length := by
      simp only [padLength, List.length_cons]
      omega
    simp only [replaceAll, List.map_map] at ih
    simp only [base64Encode, replaceAll, List.map_cons, base64Url, urlChar_of_base64Char,
      List.map_map, ih, hp, List.cons_append]

theorem base64Url_urlSafe (bs : List Nat) : ∀ c ∈ base64Url bs, isUrlSafeChar c = true := by
  induction bs using base64Url.induct with
  | case1 => simp [base64Url]
  | case2 a => simp [base64Url, isUrlSafeChar_base64UrlChar]
  | case3 a b => simp [base64Url, isUrlSafeChar_base64UrlChar]
  | case4 a b c rest ih =>
    intro x hx
    simp only [base64Url, List.mem_cons] at hx
    rcases hx with rfl | rfl | rfl | rfl | hx
    · exact isUrlSafeChar_base64UrlChar _
    · exact isUrlSafeChar_base64UrlChar _
    · exact isUrlSafeChar_base64UrlChar _
    · exact isUrlSafeChar_base64UrlChar _
    · exact ih x hx

theorem dropWhile_eq_self_of_head {α : Type} (p : α → Bool) (l : List α)
    (h : ∀ a ∈ l.head?, p a = false) : l.dropWhile p = l := by
  cases l with
  | nil => rfl
  | cons a l => simp [List.dropWhile, h a (by simp)]

theorem stripTrailingEq_append_replicate (x : Str) (k : Nat) (h : ∀ c ∈ x, c ≠ '=') :
    stripTrailingEq (x ++ List.replicate k '=') = x := by
  unfold stripTrailingEq
  rw [List.reverse_append, List.reverse_replicate]
  have hdrop : ∀ k, (List.replicate k '=' ++ x.reverse).dropWhile (fun c => c == '=') =
      x.reverse.dropWhile (fun c => c == '=') := by
    intro k
    induction k with
    | zero => rfl
    | succ k ih => simp [List.replicate_succ, List.dropWhile, ih]
  rw [hdrop, dropWhile_eq_self_of_head, List.reverse_reverse]
  intro a ha
  have hmem : a ∈ x := by
    have := List.mem_of_mem_head? ha
    simpa using this
  simpa using h a hmem

theorem isUrlSafeChar_ne (c : Char) (h : isUrlSafeChar c = true) :
    c ≠ '=' ∧ c ≠ '+' ∧ c ≠ '/' := by
  refine ⟨?_, ?_, ?_⟩ <;> rintro rfl <;> exact absurd h (by decide)

theorem urlSafeBase64_eq_base64Url (bs : List Nat) : urlSafeBase64 bs = base64Url bs := by
  unfold urlSafeBase64
  rw [base64Encode_replaced]
  exact stripTrailingEq_append_replicate _ _ fun c hc =>
    (isUrlSafeChar_ne c (base64Url_urlSafe bs c hc)).1

theorem encodeLocation_eq (u : Str) : encodeLocation u = .ok (urlSafeBase64 (utf8Bytes u)) := by
  have hall : (utf8Bytes u).all (fun b => decide (b ≤ 255)) = true := by
    rw [List.all_eq_true]
    intro b hb
    have := utf8Bytes_lt u b hb
    simp only [decide_eq_true_eq]
    omega
  simp only [encodeLocation, unescape_encodeURIComponent, btoa, hall, if_true, urlSafeBase64]

/-! ## Header lists -/

theorem nameMatches_iff (a b : Str) : nameMatches a b = true ↔ byteLowercase a = byteLowercase b := by
  simp [nameMatches]

theorem nameMatches_self (a : Str) : nameMatches a a = true := by
  simp [nameMatches]

theorem nameMatches_congr_left {a b : Str} (h : nameMatches a b = true) (n : Str) :
    nameMatches a n = nameMatches b n := by
  rw [nameMatches_iff] at h
  simp [nameMatches, h]

theorem toNat_ofNat_add_32 (n : Nat) (h1 : 65 ≤ n) (h2 : n ≤ 90) :
    (Char.ofNat (n + 32)).toNat = n + 32 := by
  interval_cases n <;> rfl

theorem byteLower_idem (c : Char) : byteLower (byteLower c) = byteLower c := by
  unfold byteLower
  by_cases h : 65 ≤ c.toNat ∧ c.toNat ≤ 90
  · have := toNat_ofNat_add_32 c.toNat h.1 h.2
    rw [if_pos h, if_neg (by omega)]
  · rw [if_neg h, if_neg h]

theorem byteLowercase_idem (s : Str) : byteLowercase (byteLowercase s) = byteLowercase s := by
  simp [byteLowercase, List.map_map, Function.comp_def, byteLower_idem]

namespace Headers

theorem values_nil (n : Str) : values [] n = [] := rfl

theorem values_append (h1 h2 : Headers) (n : Str) :
    values (h1 ++ h2) n = values h1 n ++ values h2 n := by
  simp [values]

theorem values_cons (p : Header) (h : Headers) (n : Str) :
    values (p :: h) n = (if nameMatches p.1 n then [p.2] else []) ++ values h n := by
  by_cases hp : nameMatches p.1 n = true <;> simp [values, List.filter_cons, hp]

theorem mem_values {h : Headers} {n v : Str} :
    v ∈ values h n ↔ ∃ k, (k, v) ∈ h ∧ nameMatches k n = true := by
  simp [values]

theorem get_eq_none_iff (h : Headers) (n : Str) : get h n = none ↔ values h n = [] := by
  unfold get
  split <;> simp_all

theorem get_isSome_iff (h : Headers) (n : Str) :
    (get h n).isSome = true ↔ ∃ p ∈ h, nameMatches p.1 n = true := by
  rw [← Option.ne_none_iff_isSome, Ne, get_eq_none_iff, List.eq_nil_iff_forall_not_mem]
  constructor
  · intro hne
    by_contra hcon
    apply hne
    intro v hv
    obtain ⟨k, hk, hm⟩ := mem_values.1 hv
    exact hcon ⟨(k, v), hk, hm⟩
  · rintro ⟨p, hp, hm⟩ hall
    exact hall p.2 (mem_values.2 ⟨p.1, hp, hm⟩)

theorem get_isSome_of_mem_names (h : Headers) (n : Str) (hn : n ∈ h.map Prod.fst) :
    (get h n).isSome = true := by
  rw [get_isSome_iff]
  obtain ⟨p, hp, rfl⟩ := List.mem_map.1 hn
  exact ⟨p, hp, nameMatches_self _⟩

/-- The values of a name depend on the values list only. -/
theorem get_congr {h1 h2 : Headers} {n m : Str} (h : values h1 n = values h2 m) :
    get h1 n = get h2 m := by
  unfold get
  rw [h]

theorem stored_name_matches (h : Headers) (name : Str) :
    nameMatches (match h.find? fun p => nameMatches p.1 name with
      | some p => p.1
      | none => name) name = true := by
  cases hf : h.find? fun p => nameMatches p.1 name with
  | none => exact nameMatches_self _
  | some p => simpa using List.find?_some hf

theorem values_append_header (h : Headers) (name value n : Str) :
    values (append h name value) n =
      values h n ++ (if nameMatches name n then [normalizeValue value] else []) := by
  unfold append
  simp only []
  rw [values_append, values_cons, values_nil, List.append_nil,
    nameMatches_congr_left (stored_name_matches h name) n]

theorem values_foldl_append (l : List (Str × Str)) (acc : Headers) (n : Str) :
    values (l.foldl (fun h p => append h p.1 p.2) acc) n =
      values acc n ++ (values l n).map normalizeValue := by
  induction l generalizing acc with
  | nil => simp [values_nil]
  | cons p l ih =>
    rw [List.foldl_cons, ih, values_append_header, values_cons, List.append_assoc]
    by_cases hp : nameMatches p.1 n = true <;> simp [hp]

theorem values_fill (l : List (Str × Str)) (n : Str) :
    values (fill l) n = (values l n).map normalizeValue := by
  unfold fill
  rw [values_foldl_append, values_nil, List.nil_append]

theorem foldl_append_of_fresh (l : List (Str × Str)) (acc : Headers)
    (hnd : (l.map fun p => byteLowercase p.1).Nodup)
    (hfresh : ∀ p ∈ acc, ∀ q ∈ l, byteLowercase p.1 ≠ byteLowercase q.1) :
    l.foldl (fun h p => append h p.1 p.2) acc =
      acc ++ l.map fun p => (p.1, normalizeValue p.2) := by
  induction l generalizing acc with
  | nil => simp
  | cons q l ih =>
    rw [List.map_cons, List.nodup_cons] at hnd
    have hfind : (acc.find? fun p => nameMatches p.1 q.1) = none := by
      rw [List.find?_eq_none]
      intro p hp
      simpa [nameMatches] using hfresh p hp q (List.mem_cons_self _ _)
    have happ : append acc q.1 q.2 = acc ++ [(q.1, normalizeValue q.2)] := by
      simp [append, hfind]
    rw [List.foldl_cons, happ, ih _ hnd.2]
    · simp
    · intro p hp r hr
      rcases List.mem_append.1 hp with hp | hp
      · exact hfresh p hp r (List.mem_cons_of_mem _ hr)
      · simp only [List.mem_singleton] at hp
        subst hp
        intro heq
        exact hnd.1 (List.mem_map.2 ⟨r, hr, heq.symm⟩)

theorem fill_of_nodup (l : List (Str × Str)) (hnd : (l.map fun p => byteLowercase p.1).Nodup) :
    fill l = l.map fun p => (p.1, normalizeValue p.2) := by
  unfold fill
  rw [foldl_append_of_fresh l [] hnd (by simp), List.nil_append]

end Headers

theorem corsHeaders_names (origin : Option Str) : (corsHeaders origin).map Prod.fst = corsNames :=
  rfl

theorem corsHeaders_nodup (origin : Option Str) :
    ((corsHeaders origin).map fun p => byteLowercase p.1).Nodup := by
  have h : ((corsHeaders origin).map fun p => byteLowercase p.1) = corsNames.map byteLowercase := rfl
  rw [h]
  decide

theorem fill_corsHeaders_names (origin : Option Str) :
    (Headers.fill (corsHeaders origin)).map Prod.fst = corsNames := by
  rw [Headers.fill_of_nodup _ (corsHeaders_nodup origin), List.map_map]
  rfl

/-! ## Iteration of a `Headers` object and `cleanHeaders` -/

namespace Headers

theorem mem_sortedNames {h : Headers} {name : Str} :
    name ∈ sortedNames h ↔ ∃ p ∈ h, byteLowercase p.1 = name := by
  unfold sortedNames
  rw [(List.perm_insertionSort _ _).mem_iff, List.mem_dedup, List.mem_map]

theorem nodup_sortedNames (h : Headers) : (sortedNames h).Nodup := by
  unfold sortedNames
  exact (List.perm_insertionSort _ _).nodup_iff.2 (List.nodup_dedup _)

theorem byteLowercase_of_mem_sortedNames {h : Headers} {name : Str} (hn : name ∈ sortedNames h) :
    byteLowercase name = name := by
  obtain ⟨p, _, rfl⟩ := mem_sortedNames.1 hn
  exact byteLowercase_idem _

theorem fst_mem_sortedNames_of_mem_entries {h : Headers} {p : Header} (hp : p ∈ entries h) :
    p.1 ∈ sortedNames h := by
  unfold entries at hp
  rw [List.mem_flatMap] at hp
  obtain ⟨name, hname, hp⟩ := hp
  split_ifs at hp with hs
  · obtain ⟨v, _, rfl⟩ := List.mem_map.1 hp
    exact hname
  · split at hp
    · simp only [List.mem_singleton] at hp
      subst hp
      exact hname
    · simp at hp

theorem fst_of_mem_setFirst {name value : Str} {h : Headers} {p : Header}
    (hp : p ∈ setFirst name value h) : ∃ q ∈ h, p.1 = q.1 := by
  induction h with
  | nil => simp [setFirst] at hp
  | cons q h ih =>
    unfold setFirst at hp
    split_ifs at hp with hq
    · rcases List.mem_cons.1 hp with rfl | hp
      · exact ⟨q, List.mem_cons_self _ _, rfl⟩
      · exact ⟨p, List.mem_cons_of_mem _ (List.mem_filter.1 hp).1, rfl⟩
    · rcases List.mem_cons.1 hp with rfl | hp
      · exact ⟨p, List.mem_cons_self _ _, rfl⟩
      · obtain ⟨r, hr, he⟩ := ih hp
        exact ⟨r, List.mem_cons_of_mem _ hr, he⟩

theorem fst_of_mem_set {h : Headers} {name value : Str} {p : Header}
    (hp : p ∈ set h name value) : p.1 = name ∨ ∃ q ∈ h, p.1 = q.1 := by
  unfold set at hp
  split_ifs at hp
  · exact Or.inr (fst_of_mem_setFirst hp)
  · rcases List.mem_append.1 hp with hp | hp
    · exact Or.inr ⟨p, hp, rfl⟩
    · simp only [List.mem_singleton] at hp
      exact Or.inl (by rw [hp])

end Headers

theorem cleanHeaders_fold_names (es : List Header) (acc : Headers) (p : Header)
    (hp : p ∈ es.foldl (fun out e =>
      if denyList.contains (toLowerCase e.1) then out else Headers.set out e.1 e.2) acc) :
    (∃ q ∈ acc, p.1 = q.1) ∨ ∃ e ∈ es, p.1 = e.1 ∧ denyList.contains (toLowerCase e.1) = false := by
  induction es generalizing acc with
  | nil => exact Or.inl ⟨p, hp, rfl⟩
  | cons e es ih =>
    rw [List.foldl_cons] at hp
    rcases ih _ hp with ⟨q, hq, hpq⟩ | ⟨e', he', h'⟩
    · split_ifs at hq with hd
      · exact Or.inl ⟨q, hq, hpq⟩
      · rcases Headers.fst_of_mem_set hq with hq | ⟨r, hr, hqr⟩
        · exact Or.inr ⟨e, List.mem_cons_self _ _, hpq.trans hq, by simpa using hd⟩
        · exact Or.inl ⟨r, hr, hpq.trans hqr⟩
    · exact Or.inr ⟨e', List.mem_cons_of_mem _ he', h'⟩

theorem denyList_lower : ∀ d ∈ denyList, byteLowercase d = d ∧ toLowerCase d = d := by
  decide

theorem cleanHeaders_name {headers : Headers} {p : Header} (hp : p ∈ cleanHeaders headers) :
    byteLowercase p.1 = p.1 ∧ toLowerCase p.1 ∉ denyList := by
  rcases cleanHeaders_fold_names _ _ p hp with ⟨q, hq, _⟩ | ⟨e, he, hpe, hd⟩
  · simp at hq
  · rw [hpe]
    refine ⟨Headers.byteLowercase_of_mem_sortedNames
      (Headers.fst_mem_sortedNames_of_mem_entries he), ?_⟩
    simpa using hd

theorem cleanHeaders_no_match {headers : Headers} {p : Header} (hp : p ∈ cleanHeaders headers)
    {d : Str} (hd : d ∈ denyList) : nameMatches p.1 d = false := by
  obtain ⟨hlow, hnot⟩ := cleanHeaders_name hp
  obtain ⟨hd1, hd2⟩ := denyList_lower d hd
  rw [Bool.eq_false_iff, Ne, nameMatches_iff, hlow, hd1]
  intro heq
  rw [heq, hd2] at hnot
  exact hnot hd

/-! ## Lookup by name after iteration, `set`, and the object operations -/

theorem filter_flatMap_key (names : List Str) (f : Str → List (Str × Str)) (k : Str)
    (hnd : names.Nodup) (hf : ∀ name, ∀ p ∈ f name, p.1 = name) :
    (names.flatMap f).filter (fun p => p.1 = k) = if k ∈ names then f k else [] := by
  induction names with
  | nil => rfl
  | cons a names ih =>
    rw [List.nodup_cons] at hnd
    rw [List.flatMap_cons, List.filter_append, ih hnd.2]
    by_cases hak : a = k
    · subst hak
      have h1 : (f a).filter (fun p => decide (p.1 = a)) = f a := by
        rw [List.filter_eq_self]
        intro p hp
        simpa using hf a p hp
      simp [h1, hnd.1]
    · have h1 : (f a).filter (fun p => decide (p.1 = k)) = [] := by
        rw [List.filter_eq_nil_iff]
        intro p hp
        rw [decide_eq_true_eq, hf a p hp]
        exact hak
      have h2 : (k ∈ a :: names) ↔ k ∈ names := by
        simp [Ne.symm hak]
      simp only [h1, List.nil_append, h2]

namespace Headers

theorem values_eq_exactValues (h : Headers) (n k : Str)
    (hk : ∀ p ∈ h, nameMatches p.1 n = true ↔ p.1 = k) : values h n = exactValues h k := by
  unfold values exactValues
  congr 1
  apply List.filter_congr
  intro p hp
  by_cases hpk : p.1 = k
  · have hm := (hk p hp).2 hpk
    rw [hm]
    simp [hpk]
  · have : nameMatches p.1 n = false := by
      rw [Bool.eq_false_iff]
      exact fun hm => hpk ((hk p hp).1 hm)
    simp [hpk, this]

theorem values_congr_name (h : Headers) {n m : Str} (hnm : byteLowercase n = byteLowercase m) :
    values h n = values h m := by
  unfold values
  congr 1
  apply List.filter_congr
  intro p _
  simp [nameMatches, hnm]

theorem entries_fst (h : Headers) (name : Str) :
    ∀ p ∈ (if name = "set-cookie".data then (values h name).map fun v => (name, v)
      else
        match get h name with
        | some v => [(name, v)]
        | none => []), p.1 = name := by
  intro p hp
  split_ifs at hp
  · obtain ⟨v, _, rfl⟩ := List.mem_map.1 hp
    rfl
  · split at hp
    · simp only [List.mem_singleton] at hp
      rw [hp]
    · simp at hp

/-- Iteration yields, under a name other than `set-cookie`, the combined value
of `get` and nothing else. -/
theorem values_entries (h : Headers) (n : Str) (hn : byteLowercase n ≠ "set-cookie".data) :
    values (entries h) n = (get h n).toList := by
  have hlow : ∀ p ∈ entries h, nameMatches p.1 n = true ↔ p.1 = byteLowercase n := by
    intro p hp
    rw [nameMatches_iff,
      byteLowercase_of_mem_sortedNames (fst_mem_sortedNames_of_mem_entries hp)]
  rw [values_eq_exactValues _ _ _ hlow]
  unfold exactValues entries
  rw [filter_flatMap_key _ _ _ (nodup_sortedNames h) (entries_fst h), if_neg hn]
  have hget : get h (byteLowercase n) = get h n :=
    get_congr (values_congr_name h (byteLowercase_idem n))
  rw [hget]
  by_cases hmem : byteLowercase n ∈ sortedNames h
  · rw [if_pos hmem]
    cases get h n <;> rfl
  · rw [if_neg hmem]
    have : get h n = none := by
      rw [← Option.not_isSome_iff_eq_none, get_isSome_iff]
      rintro ⟨p, hp, hm⟩
      exact hmem (mem_sortedNames.2 ⟨p, hp, (nameMatches_iff _ _).1 hm⟩)
    rw [this]
    rfl

theorem get_of_values_singleton {h : Headers} {n v : Str} (hv : values h n = [v]) :
    get h n = some v := by
  unfold get
  rw [hv]
  simp [List.intercalate, List.intersperse]

theorem values_copy (h : Headers) (n : Str) (hn : byteLowercase n ≠ "set-cookie".data) :
    values (copy h) n = (get h n).toList.map normalizeValue := by
  unfold copy
  rw [values_fill, values_entries h n hn]

theorem values_setFirst (name value : Str) (h : Headers)
    (hany : ∃ p ∈ h, nameMatches p.1 name = true) :
    values (setFirst name value h) name = [value] := by
  induction h with
  | nil => simp at hany
  | cons p h ih =>
    unfold setFirst
    by_cases hp : nameMatches p.1 name = true
    · rw [if_pos hp, values_cons, if_pos hp]
      have : values (h.filter fun q => !nameMatches q.1 name) name = [] := by
        unfold values
        rw [List.filter_filter]
        simp
      rw [this]
      rfl
    · rw [if_neg hp, values_cons, if_neg hp, List.nil_append]
      apply ih
      obtain ⟨q, hq, hm⟩ := hany
      rcases List.mem_cons.1 hq with rfl | hq
      · exact absurd hm hp
      · exact ⟨q, hq, hm⟩

theorem values_set_self (h : Headers) (name value : Str) :
    values (set h name value) name = [normalizeValue value] := by
  unfold set
  by_cases hany : (h.any fun p => nameMatches p.1 name) = true
  · rw [if_pos hany]
    apply values_setFirst
    simpa using hany
  · rw [if_neg hany, values_append, values_cons, if_pos (nameMatches_self _), values_nil]
    have : values h name = [] := by
      rw [List.eq_nil_iff_forall_not_mem]
      intro v hv
      obtain ⟨k, hk, hm⟩ := mem_values.1 hv
      exact hany (List.any_eq_true.2 ⟨(k, v), hk, hm⟩)
    rw [this]
    rfl

end Headers

/-! ### Objects -/

theorem Obj.put_keys (o : Obj) (k v : Str) :
    (o.put k v).map Prod.fst = if k ∈ o.map Prod.fst then o.map Prod.fst else o.map Prod.fst ++ [k] := by
  unfold Obj.put
  by_cases hk : (o.any fun p => p.1 = k) = true
  · have hmem : k ∈ o.map Prod.fst := by
      obtain ⟨p, hp, hpk⟩ := List.any_eq_true.1 hk
      exact List.mem_map.2 ⟨p, hp, by simpa using hpk⟩
    rw [if_pos hk, if_pos hmem, List.map_map]
    apply List.map_congr_left
    intro p _
    by_cases hpk : p.1 = k <;> simp [hpk]
  · have hmem : k ∉ o.map Prod.fst := by
      intro hmem
      obtain ⟨p, hp, hpk⟩ := List.mem_map.1 hmem
      exact hk (List.any_eq_true.2 ⟨p, hp, by simpa using hpk⟩)
    rw [if_neg hk, if_neg hmem]
    simp

theorem Obj.put_nodup (o : Obj) (k v : Str) (hnd : (o.map Prod.fst).Nodup) :
    ((o.put k v).map Prod.fst).Nodup := by
  rw [Obj.put_keys]
  split_ifs with hk
  · exact hnd
  · exact List.Nodup.append hnd (List.nodup_singleton k) (by simpa using hk)

theorem Obj.exactValues_put_self (o : Obj) (k v : Str) (hnd : (o.map Prod.fst).Nodup) :
    exactValues (o.put k v) k = [v] := by
  induction o with
  | nil => simp [Obj.put, exactValues]
  | cons p o ih =>
    rw [List.map_cons, List.nodup_cons] at hnd
    by_cases hpk : p.1 = k
    · have hnot : ∀ q ∈ o, q.1 ≠ k := by
        intro q hq hqk
        exact hnd.1 (List.mem_map.2 ⟨q, hq, hqk.trans hpk.symm⟩)
      have hfil : (o.filter fun q => decide (q.1 = k)) = [] := by
        rw [List.filter_eq_nil_iff]
        intro q hq
        simpa using hnot q hq
      have hmap : (o.map fun q => if q.1 = k then (k, v) else q) = o := by
        conv_rhs => rw [← List.map_id o]
        apply List.map_congr_left
        intro q hq
        simp [hnot q hq]
      simp [Obj.put, exactValues, hpk, hmap, hfil, List.filter_cons]
    · have ih' := ih hnd.2
      unfold Obj.put exactValues at ih' ⊢
      by_cases hany : (o.any fun q => q.1 = k) = true
      · have hany' : ((p :: o).any fun q => q.1 = k) = true := by
          simp only [List.any_cons, hany, Bool.or_true]
        rw [if_pos hany] at ih'
        rw [if_pos hany', List.map_cons, if_neg hpk, List.filter_cons, if_neg (by simpa using hpk)]
        exact ih'
      · have hany' : ¬ ((p :: o).any fun q => q.1 = k) = true := by
          simp only [List.any_cons, Bool.or_eq_true, decide_eq_true_eq, not_or]
          exact ⟨hpk, hany⟩
        rw [if_neg hany] at ih'
        rw [if_neg hany', List.cons_append, List.filter_cons, if_neg (by simpa using hpk)]
        exact ih'

theorem Obj.filter_map_update (o : Obj) (k v k' : Str) (hk : k ≠ k') :
    (o.map fun p => if p.1 = k then (k, v) else p).filter (fun p => p.1 = k') =
      o.filter fun p => p.1 = k' := by
  induction o with
  | nil => rfl
  | cons p o ih =>
    by_cases hpk : p.1 = k
    · have hpk' : ¬ p.1 = k' := fun h => hk (hpk.symm.trans h)
      simp only [List.map_cons, if_pos hpk, List.filter_cons, decide_eq_true_eq, if_neg hk,
        if_neg hpk', ih]
    · simp only [List.map_cons, if_neg hpk, List.filter_cons, ih]

theorem Obj.exactValues_put_other (o : Obj) (k v k' : Str) (hk : k ≠ k') :
    exactValues (o.put k v) k' = exactValues o k' := by
  unfold Obj.put exactValues
  split_ifs
  · rw [Obj.filter_map_update o k v k' hk]
  · simp [List.filter_append, List.filter_cons, hk]

theorem Obj.foldl_put_nodup (l : List (Str × Str)) (acc : Obj) (hnd : (acc.map Prod.fst).Nodup) :
    ((l.foldl (fun o p => Obj.put o p.1 p.2) acc).map Prod.fst).Nodup := by
  induction l generalizing acc with
  | nil => exact hnd
  | cons p l ih => exact ih _ (Obj.put_nodup acc p.1 p.2 hnd)

theorem Obj.foldl_put_other (l : List (Str × Str)) (acc : Obj) (k : Str)
    (hk : ∀ p ∈ l, p.1 ≠ k) :
    exactValues (l.foldl (fun o p => Obj.put o p.1 p.2) acc) k = exactValues acc k := by
  induction l generalizing acc with
  | nil => rfl
  | cons p l ih =>
    rw [List.foldl_cons, ih _ fun q hq => hk q (List.mem_cons_of_mem _ hq),
      Obj.exactValues_put_other _ _ _ _ (hk p (List.mem_cons_self _ _))]

/-- A key that the list of pairs holds exactly once, with value `v`, has the
value `v` in the object built from the pairs. -/
theorem Obj.foldl_put_single (l : List (Str × Str)) (acc : Obj) (k v : Str)
    (hnd : (acc.map Prod.fst).Nodup) (hl : exactValues l k = [v]) :
    exactValues (l.foldl (fun o p => Obj.put o p.1 p.2) acc) k = [v] := by
  induction l generalizing acc with
  | nil => simp [exactValues] at hl
  | cons p l ih =>
    rw [List.foldl_cons]
    by_cases hpk : p.1 = k
    · have hl' : p.2 = v ∧ exactValues l k = [] := by
        simpa [exactValues, List.filter_cons, hpk] using hl
      have hnot : ∀ q ∈ l, q.1 ≠ k := by
        intro q hq hqk
        have hmem : q.2 ∈ exactValues l k :=
          List.mem_map.2 ⟨q, List.mem_filter.2 ⟨hq, by simpa using hqk⟩, rfl⟩
        rw [hl'.2] at hmem
        simp at hmem
      rw [Obj.foldl_put_other _ _ _ hnot, hpk, hl'.1]
      exact Obj.exactValues_put_self acc k v hnd
    · have hl' : exactValues l k = [v] := by
        simpa [exactValues, List.filter_cons, hpk] using hl
      exact ih _ (Obj.put_nodup acc p.1 p.2 hnd) hl'

theorem Obj.foldl_put_keys (l : List (Str × Str)) (acc : Obj) :
    ∀ p ∈ l.foldl (fun o p => Obj.put o p.1 p.2) acc,
      p.1 ∈ acc.map Prod.fst ∨ p.1 ∈ l.map Prod.fst := by
  induction l generalizing acc with
  | nil =>
    intro p hp
    exact Or.inl (List.mem_map_of_mem _ hp)
  | cons q l ih =>
    intro p hp
    rw [List.foldl_cons] at hp
    rcases ih _ p hp with h | h
    · rw [Obj.put_keys] at h
      split_ifs at h
      · exact Or.inl h
      · rcases List.mem_append.1 h with h | h
        · exact Or.inl h
        · simp only [List.mem_singleton] at h
          exact Or.inr (by simp [h])
    · exact Or.inr (List.mem_cons_of_mem _ h)

/-! ## The rewritten `location` in the relayed response -/

theorem normalizeValue_of_no_whitespace (v : Str) (h : ∀ c ∈ v, isHttpWhitespace c = false) :
    normalizeValue v = v := by
  unfold normalizeValue
  rw [dropWhile_eq_self_of_head _ v fun a ha => h a (List.mem_of_mem_head? ha),
    dropWhile_eq_self_of_head _ v.reverse fun a ha =>
      h a (List.mem_reverse.1 (List.mem_of_mem_head? ha)),
    List.reverse_reverse]

theorem isUrlSafeChar_not_whitespace (c : Char) (h : isUrlSafeChar c = true) :
    isHttpWhitespace c = false := by
  simp only [isUrlSafeChar, Bool.or_eq_true, Bool.and_eq_true, decide_eq_true_eq] at h
  simp only [isHttpWhitespace, Bool.or_eq_false_iff, decide_eq_false_iff_not]
  omega

theorem urlSafeBase64_urlSafe (bs : List Nat) : ∀ c ∈ urlSafeBase64 bs, isUrlSafeChar c = true := by
  rw [urlSafeBase64_eq_base64Url]
  exact base64Url_urlSafe bs

theorem normalizeValue_proxied (bs : List Nat) :
    normalizeValue ("/proxy/".data ++ urlSafeBase64 bs) = "/proxy/".data ++ urlSafeBase64 bs := by
  apply normalizeValue_of_no_whitespace
  have hp : ∀ c ∈ "/proxy/".data, isHttpWhitespace c = false := by decide
  intro c hc
  rcases List.mem_append.1 hc with hc | hc
  · exact hp c hc
  · exact isUrlSafeChar_not_whitespace c (urlSafeBase64_urlSafe bs c hc)

theorem location_not_set_cookie : byteLowercase "location".data ≠ "set-cookie".data := by
  decide

theorem get_copy_location (h : Headers) (L : Str) (hL : Headers.get h "location".data = some L) :
    Headers.get (Headers.copy h) "location".data = some (normalizeValue L) := by
  apply Headers.get_of_values_singleton
  rw [Headers.values_copy h _ location_not_set_cookie, hL]
  rfl

theorem rewriteLocation_eq (P : Platform) (t : Str) (h : Headers) (L R : Str)
    (hL : Headers.get h "location".data = some L) (hne : normalizeValue L ≠ [])
    (hR : P.resolveURL (normalizeValue L) t = some R) :
    rewriteLocation P t h =
      Headers.set (Headers.copy h) "location".data
        ("/proxy/".data ++ urlSafeBase64 (utf8Bytes R)) := by
  unfold rewriteLocation
  simp only []
  rw [get_copy_location h L hL]
  cases hv : normalizeValue L with
  | nil => exact absurd hv hne
  | cons c cs =>
    simp only []
    rw [← hv, hR]
    simp only [encodeLocation_eq]

theorem lowercase_key_matches_location (k : Str) (hk : byteLowercase k = k) :
    nameMatches k "location".data = true ↔ k = "location".data := by
  rw [nameMatches_iff, hk]
  exact Iff.rfl

theorem corsNames_not_location :
    ∀ n ∈ corsNames, nameMatches n "location".data = false ∧ n ≠ "location".data := by
  decide

theorem exactValues_entries_location (h : Headers) (v : Str)
    (hv : Headers.values h "location".data = [v]) :
    exactValues (Headers.entries h) "location".data = [v] := by
  have hlow : ∀ p ∈ Headers.entries h,
      nameMatches p.1 "location".data = true ↔ p.1 = "location".data := fun p hp =>
    lowercase_key_matches_location p.1 (Headers.byteLowercase_of_mem_sortedNames
      (Headers.fst_mem_sortedNames_of_mem_entries hp))
  rw [← Headers.values_eq_exactValues _ _ _ hlow,
    Headers.values_entries h _ location_not_set_cookie, Headers.get_of_values_singleton hv]
  rfl

theorem fromEntries_keys_lowercase (h : Headers) :
    ∀ p ∈ Obj.fromEntries (Headers.entries h), byteLowercase p.1 = p.1 := by
  intro p hp
  rcases Obj.foldl_put_keys _ _ p hp with hk | hk
  · simp at hk
  · obtain ⟨q, hq, hqp⟩ := List.mem_map.1 hk
    rw [← hqp]
    exact Headers.byteLowercase_of_mem_sortedNames (Headers.fst_mem_sortedNames_of_mem_entries hq)

theorem values_responseHeaders_location (h : Headers) (origin : Option Str) (v : Str)
    (hv : Headers.values h "location".data = [v]) :
    Headers.values (responseHeaders h origin) "location".data = [v] := by
  have hobj : exactValues (Obj.fromEntries (Headers.entries h)) "location".data = [v] :=
    Obj.foldl_put_single _ [] _ _ List.nodup_nil (exactValues_entries_location h v hv)
  have hkeys : ∀ p ∈ responseHeaders h origin,
      nameMatches p.1 "location".data = true ↔ p.1 = "location".data := by
    intro p hp
    rcases Obj.foldl_put_keys _ _ p hp with hk | hk
    · obtain ⟨q, hq, hqp⟩ := List.mem_map.1 hk
      rcases Obj.foldl_put_keys _ _ q hq with hk' | hk'
      · simp at hk'
      · obtain ⟨r, hr, hrq⟩ := List.mem_map.1 hk'
        apply lowercase_key_matches_location
        rw [← hqp, ← hrq]
        exact fromEntries_keys_lowercase h r hr
    · rw [corsHeaders_names] at hk
      obtain ⟨h1, h2⟩ := corsNames_not_location p.1 hk
      simp [h1, h2]
  rw [Headers.values_eq_exactValues _ _ _ hkeys]
  unfold responseHeaders Obj.spread
  rw [Obj.foldl_put_other _ _ _ (fun p hp => (corsNames_not_location p.1 (by
    rw [← corsHeaders_names origin]
    exact List.mem_map_of_mem _ hp)).2)]
  exact Obj.foldl_put_single _ [] _ _ List.nodup_nil hobj

/-- The constructor succeeds, without a socket, on a status from 200 to 599
that comes without a body or is not a null body status. -/
theorem newResponse_ok (body : Option Body) (status : Nat) (o : Obj) (h1 : 200 ≤ status)
    (h2 : status ≤ 599) (h3 : body = none ∨ isNullBodyStatus status = false) :
    newResponse body status o none = .ok (initializeResponse body status o none) := by
  have ha : statusAccepted status none = true := by simp [statusAccepted, h1, h2]
  have hb : (body.isSome && isNullBodyStatus status) = false := by
    rcases h3 with h | h <;> simp [h]
  unfold newResponse
  rw [if_neg (by simp [ha]), if_neg (by simp [hb])]

/-- What the constructor returns, when it returns, is the initialised
response. -/
theorem newResponse_eq_ok {body : Option Body} {status : Nat} {o : Obj} {ws : Option Socket}
    {r : Response} (h : newResponse body status o ws = .ok r) :
    r = initializeResponse body status o ws := by
  unfold newResponse at h
  split_ifs at h
  simp only [Except.ok.injEq] at h
  exact h.symm

/-- Outside 200..599 the constructor throws, whatever the body and the headers. -/
theorem newResponse_rangeError (body : Option Body) (status : Nat) (o : Obj)
    (h : status < 200 ∨ 599 < status) : newResponse body status o none = .error .rangeError := by
  have ha : statusAccepted status none = false := by
    rcases h with h | h
    · simp [statusAccepted, Nat.not_le.2 h]
    · simp [statusAccepted, Nat.not_le.2 h]
  unfold newResponse
  rw [if_pos ha]

theorem values_newResponse_location (body : Option Body) (status : Nat) (o : Obj)
    (ws : Option Socket) :
    Headers.values (initializeResponse body status o ws).headers "location".data =
      (Headers.values o "location".data).map normalizeValue := by
  have hfill := Headers.values_fill o "location".data
  unfold initializeResponse
  simp only []
  split
  · split_ifs
    · exact hfill
    · rw [Headers.values_append_header, hfill]
      simp [show nameMatches "Content-Type".data "location".data = false by decide]
  · exact hfill

theorem relayHttp_location (P : Platform) (req : Request) (t : Str) (res : UpstreamResponse)
    (L R : Str) (hf : P.fetch (httpInit req t) = .ok res)
    (hL : Headers.get res.headers "location".data = some L) (hne : normalizeValue L ≠ [])
    (hR : P.resolveURL (normalizeValue L) t = some R) (h1 : 200 ≤ res.status)
    (h2 : res.status ≤ 599) (h3 : res.body = none ∨ isNullBodyStatus res.status = false) :
    ∃ r, (relayHttp P req t).result = .ok r ∧ r.status = res.status ∧ r.body = res.body ∧
      Headers.get r.headers "location".data =
        some ("/proxy/".data ++ urlSafeBase64 (utf8Bytes R)) := by
  have hres : (relayHttp P req t).result =
      .ok (initializeResponse res.body res.status
        (responseHeaders (rewriteLocation P t res.headers)
          (Headers.get req.headers "Origin".data)) none) := by
    unfold relayHttp
    rw [hf]
    exact newResponse_ok _ _ _ h1 h2 h3
  refine ⟨_, hres, rfl, rfl, ?_⟩
  apply Headers.get_of_values_singleton
  rw [values_newResponse_location, rewriteLocation_eq P t res.headers L R hL hne hR,
    values_responseHeaders_location _ _ _ (Headers.values_set_self _ _ _), List.map_cons,
    List.map_nil, normalizeValue_proxied, normalizeValue_proxied]

/-! ## The branches of the handler -/

theorem relayWebSocket_upstream (P : Platform) (req : Request) (t : Str) :
    (relayWebSocket P req t).upstream = [webSocketInit req t] := by
  unfold relayWebSocket
  split
  · rfl
  · split <;> rfl

theorem relayHttp_upstream (P : Platform) (req : Request) (t : Str) :
    (relayHttp P req t).upstream = [httpInit req t] := by
  unfold relayHttp
  split <;> rfl

/-- Every call of the handler either issues no upstream request, or is the
WebSocket branch, or is the HTTP branch, on a target the URL parser accepted. -/
theorem fetch_cases (P : Platform) (req : Request) :
    (fetch P req).upstream = [] ∨
      ∃ t, fetch P req = relayWebSocket P req t ∨ fetch P req = relayHttp P req t := by
  unfold fetch
  by_cases h1 : req.pathname = "/".data ∨ req.pathname = "/health".data
  · rw [if_pos h1]
    exact Or.inl rfl
  · rw [if_neg h1]
    by_cases h2 : req.method = "OPTIONS".data
    · rw [if_pos h2]
      exact Or.inl rfl
    · rw [if_neg h2]
      rcases resolveTarget req with r | _ | _ | ⟨c, cs⟩
      · exact Or.inl rfl
      · exact Or.inl rfl
      · exact Or.inl rfl
      · simp only []
        cases P.parseURL (c :: cs) with
        | none => exact Or.inl rfl
        | some t =>
          simp only []
          by_cases h3 : (Headers.get req.headers "Upgrade".data).map toLowerCase =
              some "websocket".data
          · rw [if_pos h3]
            exact Or.inr ⟨t, Or.inl rfl⟩
          · rw [if_neg h3]
            exact Or.inr ⟨t, Or.inr rfl⟩

/-! ## Decoding an encoded path -/

theorem base64Url_eq_sextets (bs : List Nat) : base64Url bs = (sextets bs).map base64UrlChar := by
  induction bs using base64Url.induct with
  | case1 => rfl
  | case2 a => rfl
  | case3 a b => rfl
  | case4 a b c rest ih => simp only [base64Url, sextets, List.map_cons, ih]

theorem base64Char_of_urlChar (n : Nat) :
    (fun c => if c = '_' then '/' else c) ((fun c => if c = '-' then '+' else c)
      (base64UrlChar n)) = base64Char n := by
  by_cases h : n < 64
  · revert n
    decide
  · have h64 : 64 ≤ n := Nat.le_of_not_lt h
    have h1 : base64Char n = 'A' := List.getD_eq_default _ _ (by simpa [base64Alphabet] using h64)
    have h2 : base64UrlChar n = 'A' := List.getD_eq_default _ _ (by simpa using h64)
    rw [h1, h2]
    decide

/-- The substitution of the decoder turns the url-safe text back into the
standard alphabet. -/
theorem base64Url_standard (bs : List Nat) :
    replaceAll '_' '/' (replaceAll '-' '+' (base64Url bs)) = (sextets bs).map base64Char := by
  rw [base64Url_eq_sextets]
  simp only [replaceAll, List.map_map]
  apply List.map_congr_left
  intro n _
  exact base64Char_of_urlChar n

theorem sextets_lt (bs : List Nat) (hbs : ∀ b ∈ bs, b < 256) : ∀ v ∈ sextets bs, v < 64 := by
  induction bs using sextets.induct with
  | case1 => simp [sextets]
  | case2 a =>
    have := hbs a (by simp)
    intro v hv
    simp only [sextets, List.mem_cons, List.mem_singleton, List.not_mem_nil, or_false] at hv
    rcases hv with rfl | rfl <;> omega
  | case3 a b =>
    have := hbs a (by simp)
    have := hbs b (by simp)
    intro v hv
    simp only [sextets, List.mem_cons, List.mem_singleton, List.not_mem_nil, or_false] at hv
    rcases hv with rfl | rfl | rfl <;> omega
  | case4 a b c rest ih =>
    have := hbs a (by simp)
    have := hbs b (by simp)
    have := hbs c (by simp)
    intro v hv
    simp only [sextets, List.mem_cons] at hv
    rcases hv with rfl | rfl | rfl | rfl | hv
    · omega
    · omega
    · omega
    · omega
    · exact ih (fun x hx => hbs x (by simp [hx])) v hv

theorem sextets_length (bs : List Nat) : (sextets bs).length % 4 ≠ 1 := by
  induction bs using sextets.induct with
  | case1 => simp [sextets]
  | case2 a => simp [sextets]
  | case3 a b => simp [sextets]
  | case4 a b c rest ih =>
    simp only [sextets, List.length_cons]
    omega

theorem decodeSextets_sextets (bs : List Nat) (hbs : ∀ b ∈ bs, b < 256) :
    decodeSextets (sextets bs) = bs := by
  induction bs using sextets.induct with
  | case1 => rfl
  | case2 a =>
    have := hbs a (by simp)
    simp only [sextets, decodeSextets, List.cons.injEq, and_true]
    omega
  | case3 a b =>
    have := hbs a (by simp)
    have := hbs b (by simp)
    simp only [sextets, decodeSextets, List.cons.injEq, and_true]
    omega
  | case4 a b c rest ih =>
    have := hbs a (by simp)
    have := hbs b (by simp)
    have := hbs c (by simp)
    simp only [sextets, decodeSextets, List.cons.injEq,
      ih (fun x hx => hbs x (by simp [hx])), and_true]
    omega

theorem base64Val_base64Char : ∀ n, n < 64 → base64Val (base64Char n) = some n := by
  decide

theorem base64Char_plain (n : Nat) :
    isAsciiWhitespace (base64Char n) = false ∧ base64Char n ≠ '=' := by
  by_cases h : n < 64
  · revert n
    decide
  · have h1 : base64Char n = 'A' :=
      List.getD_eq_default _ _ (by simpa [base64Alphabet] using Nat.le_of_not_lt h)
    rw [h1]
    decide

theorem mapM_base64Val (vals : List Nat) (h : ∀ v ∈ vals, v < 64) :
    (vals.map base64Char).mapM base64Val = some vals := by
  induction vals with
  | nil => rfl
  | cons v vals ih =>
    rw [List.map_cons, List.mapM_cons, base64Val_base64Char v (h v (List.mem_cons_self _ _)),
      ih fun x hx => h x (List.mem_cons_of_mem _ hx)]
    rfl

theorem stripPadding_of_no_eq (d : Str) (h : ∀ c ∈ d, c ≠ '=') : stripPadding d = d := by
  unfold stripPadding
  split
  · next a b r heq =>
    have ha : a ∈ d := by
      rw [← List.mem_reverse, heq]
      simp
    rw [if_neg (h a ha)]
  · next a heq =>
    have ha : a ∈ d := by
      rw [← List.mem_reverse, heq]
      simp
    rw [if_neg (h a ha)]
  · rfl

/-- The forgiving decoder accepts the unpadded base64 of any byte sequence and
returns the bytes. -/
theorem atob_unpadded (bs : List Nat) (hbs : ∀ b ∈ bs, b < 256) :
    atob ((sextets bs).map base64Char) = .ok (bs.map Char.ofNat) := by
  have hfilter : ((sextets bs).map base64Char).filter (fun c => !isAsciiWhitespace c) =
      (sextets bs).map base64Char := by
    rw [List.filter_eq_self]
    intro c hc
    obtain ⟨n, _, rfl⟩ := List.mem_map.1 hc
    simp [(base64Char_plain n).1]
  have hstrip : stripPadding ((sextets bs).map base64Char) = (sextets bs).map base64Char := by
    apply stripPadding_of_no_eq
    intro c hc
    obtain ⟨n, _, rfl⟩ := List.mem_map.1 hc
    exact (base64Char_plain n).2
  have hlen : ((sextets bs).map base64Char).length % 4 ≠ 1 := by
    rw [List.length_map]
    exact sextets_length bs
  unfold atob
  simp only [hfilter, hstrip, ite_self, if_neg hlen, mapM_base64Val _ (sextets_lt bs hbs),
    decodeSextets_sextets bs hbs]

theorem decodeURIComponentAux_plain (s : Str) (h : '%' ∉ s) :
    decodeURIComponentAux 0 s = .ok s := by
  induction s with
  | nil => rfl
  | cons c s ih =>
    have hc : c ≠ '%' := fun e => h (by simp [e])
    have hs : '%' ∉ s := fun e => h (List.mem_cons_of_mem _ e)
    simp only [decodeURIComponentAux, if_neg hc, ih hs]

theorem utf8Bytes_ascii (s : Str) (h : ∀ c ∈ s, c.toNat < 128) :
    utf8Bytes s = s.map Char.toNat := by
  unfold utf8Bytes
  induction s with
  | nil => rfl
  | cons c s ih =>
    have hc : c.toNat < 0x80 := h c (List.mem_cons_self _ _)
    rw [List.flatMap_cons, ih fun x hx => h x (List.mem_cons_of_mem _ hx)]
    simp [utf8Encode, hc]

/-- The decoder applied to the encoded path of a string: the base64 part is
undone for every string; what comes out is `decodeURIComponent` of the binary
string of the UTF-8 bytes. -/
theorem decodeTarget_encoded (u : Str) :
    decodeTarget (urlSafeBase64 (utf8Bytes u)) =
      decodeURIComponent ((utf8Bytes u).map Char.ofNat) := by
  unfold decodeTarget
  rw [urlSafeBase64_eq_base64Url, base64Url_standard, atob_unpadded _ (utf8Bytes_lt u)]

/-! ## Target resolution and the choice of the branch -/

theorem fetch_after_guards (P : Platform) (req : Request) (h1 : req.pathname ≠ "/".data)
    (h2 : req.pathname ≠ "/health".data) (hm : req.method ≠ "OPTIONS".data) :
    fetch P req =
      match resolveTarget req with
      | .error r => respond r
      | .ok none => respond (newResponse (some (.text "Missing target URL".data)) 400 [] none)
      | .ok (some []) => respond (newResponse (some (.text "Missing target URL".data)) 400 [] none)
      | .ok (some (c :: cs)) =>
        match P.parseURL (c :: cs) with
        | none => respond (newResponse (some (.text "Invalid target URL".data)) 400 [] none)
        | some targetUrl =>
          if (Headers.get req.headers "Upgrade".data).map toLowerCase = some "websocket".data then
            relayWebSocket P req targetUrl
          else relayHttp P req targetUrl := by
  unfold fetch
  rw [if_neg (by simp [h1, h2]), if_neg hm]

theorem fetch_resolved (P : Platform) (req : Request) (q t : Str) (h1 : req.pathname ≠ "/".data)
    (h2 : req.pathname ≠ "/health".data) (hm : req.method ≠ "OPTIONS".data)
    (hq : resolveTarget req = .ok (some q)) (ht : P.parseURL q = some t) (hne : q ≠ []) :
    fetch P req =
      if (Headers.get req.headers "Upgrade".data).map toLowerCase = some "websocket".data then
        relayWebSocket P req t
      else relayHttp P req t := by
  rw [fetch_after_guards P req h1 h2 hm, hq]
  cases q with
  | nil => exact absurd rfl hne
  | cons c cs => simp only [ht]

theorem fetch_unparsed (P : Platform) (req : Request) (q : Str) (h1 : req.pathname ≠ "/".data)
    (h2 : req.pathname ≠ "/health".data) (hm : req.method ≠ "OPTIONS".data)
    (hq : resolveTarget req = .ok (some q)) (ht : P.parseURL q = none) :
    ∃ msg, fetch P req = respond (newResponse (some (.text msg)) 400 [] none) := by
  rw [fetch_after_guards P req h1 h2 hm, hq]
  cases q with
  | nil => exact ⟨_, rfl⟩
  | cons c cs =>
    simp only [ht]
    exact ⟨_, rfl⟩

theorem resolveTarget_not_proxy (req : Request)
    (hp : "/proxy".data.isPrefixOf req.pathname = false) : resolveTarget req = .ok none := by
  unfold resolveTarget
  rw [if_neg (by simp [hp])]

theorem resolveTarget_query (req : Request) (q : Str)
    (hp : "/proxy".data.isPrefixOf req.pathname = true)
    (hq : searchParamsGet req.searchParams "url".data = some q) (hne : q ≠ []) :
    resolveTarget req = .ok (some q) := by
  unfold resolveTarget
  rw [if_pos hp, hq]
  cases q with
  | nil => exact absurd rfl hne
  | cons c cs => rfl

theorem resolveTarget_error (req : Request) (r : Except JsError Response)
    (h : resolveTarget req = .error r) :
    r = newResponse (some (.text "Invalid encoded URL".data)) 400 [] none := by
  unfold resolveTarget at h
  split_ifs at h
  · split at h
    · simp at h
    · split at h
      · simp at h
      · simp only [Except.error.injEq] at h
        exact h.symm

theorem not_health_of_proxy (req : Request) (hp : "/proxy".data.isPrefixOf req.pathname = true) :
    req.pathname ≠ "/".data ∧ req.pathname ≠ "/health".data := by
  constructor <;> intro h <;> rw [h] at hp <;> exact absurd hp (by decide)

/-- The headers of a response built from a string and no headers record. -/
theorem newResponse_text_headers (msg : Str) (status : Nat) (ws : Option Socket) :
    (initializeResponse (some (.text msg)) status [] ws).headers =
      [("Content-Type".data, "text/plain;charset=UTF-8".data)] := by
  rfl

theorem text_headers_no_cors :
    ∀ n ∈ corsNames,
      Headers.get [("Content-Type".data, "text/plain;charset=UTF-8".data)] n = none := by
  decide

/-- A call that issues no upstream request returns the preflight response or a
response built from a string, a status other than 204 and no headers record. -/
theorem fetch_without_upstream (P : Platform) (req : Request)
    (hu : (fetch P req).upstream = []) :
    fetch P req =
        respond (newResponse none 204 (corsHeaders (Headers.get req.headers "Origin".data)) none) ∨
      ∃ msg status, status ≠ 204 ∧
        fetch P req = respond (newResponse (some (.text msg)) status [] none) := by
  by_cases h : req.pathname = "/".data ∨ req.pathname = "/health".data
  · right
    refine ⟨"OK".data, 200, by decide, ?_⟩
    unfold fetch
    rw [if_pos h]
  · have h1 : req.pathname ≠ "/".data := fun e => h (Or.inl e)
    have h2 : req.pathname ≠ "/health".data := fun e => h (Or.inr e)
    by_cases hm : req.method = "OPTIONS".data
    · left
      unfold fetch
      rw [if_neg h, if_pos hm]
    · right
      cases hq : resolveTarget req with
      | error r =>
        refine ⟨"Invalid encoded URL".data, 400, by decide, ?_⟩
        rw [fetch_after_guards P req h1 h2 hm, hq, resolveTarget_error req r hq]
      | ok o =>
        cases o with
        | none =>
          refine ⟨"Missing target URL".data, 400, by decide, ?_⟩
          rw [fetch_after_guards P req h1 h2 hm, hq]
        | some q =>
          cases ht : P.parseURL q with
          | none =>
            obtain ⟨msg, hmsg⟩ := fetch_unparsed P req q h1 h2 hm hq ht
            exact ⟨msg, 400, by decide, hmsg⟩
          | some t =>
            cases q with
            | nil =>
              refine ⟨"Missing target URL".data, 400, by decide, ?_⟩
              rw [fetch_after_guards P req h1 h2 hm, hq]
            | cons c cs =>
              rw [fetch_resolved P req (c :: cs) t h1 h2 hm hq ht (by simp)] at hu
              split_ifs at hu
              · rw [relayWebSocket_upstream] at hu
                simp at hu
              · rw [relayHttp_upstream] at hu
                simp at hu

/-- The WebSocket branch ends in the error of `fetch`, in the 502 response
built from a string, or in the 101 response, which has no header. -/
theorem relayWebSocket_result (P : Platform) (req : Request) (t : Str) (r : Response)
    (hr : (relayWebSocket P req t).result = .ok r) :
    r = initializeResponse (some (.text "WS upgrade failed".data)) 502 [] none ∨
      (r.status = 101 ∧ r.headers = []) := by
  unfold relayWebSocket at hr
  split at hr
  · simp at hr
  · split at hr
    · replace hr : newResponse (some (.text "WS upgrade failed".data)) 502 [] none = .ok r := hr
      exact Or.inl (newResponse_eq_ok hr)
    · replace hr : newResponse none 101 [] (some P.socketPair.1) = .ok r := hr
      rw [newResponse_eq_ok hr]
      exact Or.inr ⟨rfl, rfl⟩

/-! ## The `Upgrade` test, the WebSocket branch and the relay -/

theorem toNat_ofNat_cases (m : Nat) : (Char.ofNat m).toNat = m ∨ (Char.ofNat m).toNat = 0 := by
  by_cases h : m.isValidChar
  · left
    simp only [Char.ofNat, h, dite_true, Char.ofNatAux, Char.toNat]
    rfl
  · right
    simp [Char.ofNat, h]
    rfl

theorem simpleLowercase_spec (n : Nat) :
    (∃ e ∈ lowercaseTable, covers e n = true ∧ simpleLowercase n = e.2.2.2 + (n - e.1)) ∨
      ((∀ e ∈ lowercaseTable, covers e n = false) ∧ simpleLowercase n = n) := by
  unfold simpleLowercase
  cases h : lowercaseTable.find? fun e => covers e n with
  | none =>
    right
    refine ⟨fun e he => ?_, rfl⟩
    have := List.find?_eq_none.1 h e he
    simpa using this
  | some e =>
    left
    exact ⟨e, List.mem_of_find?_eq_some h, @List.find?_some _ (fun e => covers e n) e _ h, rfl⟩

set_option maxRecDepth 100000 in
theorem lowercaseTable_ascii :
    ∀ e ∈ lowercaseTable, e = (0x41, 0x5A, 1, 0x61) ∨ 128 ≤ e.1 := by
  decide

set_option maxRecDepth 100000 in
theorem lowercaseTable_targets : ∀ e ∈ lowercaseTable,
    e.2.1 < 128 ∨ 128 ≤ e.2.2.2 ∨ e = (0x130, 0x130, 1, 0x69) ∨ e = (0x212A, 0x212A, 1, 0x6B) := by
  decide

theorem covers_iff (e : LowerRange) (n : Nat) :
    covers e n = true ↔ e.1 ≤ n ∧ n ≤ e.2.1 ∧ (n - e.1) % e.2.2.1 = 0 := by
  simp [covers, and_assoc]

/-- On ASCII the simple lowercase mapping moves the capitals `A`..`Z` by 32 and
nothing else. -/
theorem simpleLowercase_ascii (n : Nat) (h : n < 128) :
    simpleLowercase n = if 65 ≤ n ∧ n ≤ 90 then n + 32 else n := by
  rcases simpleLowercase_spec n with ⟨e, he, hc, hv⟩ | ⟨hnone, hv⟩
  · rw [covers_iff] at hc
    rcases lowercaseTable_ascii e he with rfl | h128
    · simp only at hc hv
      rw [hv, if_pos ⟨hc.1, hc.2.1⟩]
      omega
    · omega
  · have hAZ := hnone (0x41, 0x5A, 1, 0x61) (by decide)
    have hnot : ¬ (65 ≤ n ∧ n ≤ 90) := by
      intro hn
      have : covers (0x41, 0x5A, 1, 0x61) n = true := by
        rw [covers_iff]
        exact ⟨hn.1, hn.2, Nat.mod_one _⟩
      rw [this] at hAZ
      exact absurd hAZ (by simp)
    rw [hv, if_neg hnot]

/-- Outside ASCII only `U+0130` and the KELVIN SIGN have an ASCII simple
lowercase mapping. -/
theorem simpleLowercase_high (n : Nat) (h : 128 ≤ n) (h1 : n ≠ 0x130) (h2 : n ≠ 0x212A) :
    128 ≤ simpleLowercase n := by
  rcases simpleLowercase_spec n with ⟨e, he, hc, hv⟩ | ⟨_, hv⟩
  · rw [covers_iff] at hc
    rw [hv]
    rcases lowercaseTable_targets e he with hlt | hge | rfl | rfl
    · omega
    · omega
    · simp only at hc
      omega
    · simp only at hc
      omega
  · omega

set_option maxRecDepth 4096 in
theorem simpleLowercase_kelvin : simpleLowercase 0x212A = 0x6B := by
  decide

theorem byteLower_kelvinAsK_high (c : Char) (h : 128 ≤ c.toNat) (hK : c.toNat ≠ 0x212A) :
    byteLower (kelvinAsK c) = c := by
  unfold kelvinAsK byteLower
  rw [if_neg hK, if_neg (by omega)]

/-- A character other than `U+0130` has an ASCII lower-case letter as its
simple lowercase exactly when it is that letter up to ASCII case, or the letter
is `k` and the character is the KELVIN SIGN. -/
theorem ofNat_simpleLowercase_eq_iff (c d : Char) (hd : 97 ≤ d.toNat ∧ d.toNat ≤ 122)
    (h130 : c.toNat ≠ 0x130) :
    Char.ofNat (simpleLowercase c.toNat) = d ↔ byteLower (kelvinAsK c) = d := by
  by_cases hlt : c.toNat < 128
  · have hk : kelvinAsK c = c := by
      unfold kelvinAsK
      rw [if_neg (by omega)]
    rw [hk, simpleLowercase_ascii _ hlt]
    unfold byteLower
    by_cases hAZ : 65 ≤ c.toNat ∧ c.toNat ≤ 90
    · rw [if_pos hAZ, if_pos hAZ]
    · rw [if_neg hAZ, if_neg hAZ, Char.ofNat_toNat]
  · by_cases hK : c.toNat = 0x212A
    · have hk : kelvinAsK c = 'K' := by
        unfold kelvinAsK
        rw [if_pos hK]
      rw [hk, hK, simpleLowercase_kelvin, show byteLower 'K' = Char.ofNat 0x6B from by decide]
    · rw [byteLower_kelvinAsK_high c (by omega) hK]
      have hhigh := simpleLowercase_high c.toNat (by omega) h130 hK
      constructor
      · intro h
        rcases toNat_ofNat_cases (simpleLowercase c.toNat) with h' | h' <;> rw [h] at h' <;> omega
      · intro h
        rw [h] at hlt
        omega

theorem toLowerCaseAux_eq_iff (v : Str) :
    ∀ (before w : Str), (∀ d ∈ w, 97 ≤ d.toNat ∧ d.toNat ≤ 122) →
      (toLowerCaseAux before v = w ↔ (v.map kelvinAsK).map byteLower = w) := by
  induction v with
  | nil =>
    intro before w _
    simp [toLowerCaseAux]
  | cons c v ih =>
    intro before w hw
    simp only [toLowerCaseAux, List.map_cons]
    cases w with
    | nil =>
      constructor
      · intro h
        have hlen := congrArg List.length h
        unfold lowerAt at hlen
        split_ifs at hlen <;> simp at hlen
      · intro h
        simp at h
    | cons d w =>
      have hd := hw d (List.mem_cons_self _ _)
      have hw' : ∀ x ∈ w, 97 ≤ x.toNat ∧ x.toNat ≤ 122 := fun x hx =>
        hw x (List.mem_cons_of_mem _ hx)
      unfold lowerAt
      by_cases h130 : c.toNat = 0x130
      · rw [if_pos h130, byteLower_kelvinAsK_high c (by omega) (by omega)]
        constructor
        · intro h
          simp only [List.cons_append, List.nil_append, List.cons.injEq] at h
          have hmem : Char.ofNat 0x307 ∈ w := by
            rw [← h.2]
            exact List.mem_cons_self _ _
          exact absurd (hw' _ hmem) (by decide)
        · intro h
          simp only [List.cons.injEq] at h
          rw [h.1] at h130
          omega
      · rw [if_neg h130]
        by_cases hs : c.toNat = 0x3A3 ∧ followedByCased before = true ∧ followedByCased v = false
        · rw [if_pos hs, byteLower_kelvinAsK_high c (by omega) (by omega)]
          constructor
          · intro h
            simp only [List.cons_append, List.nil_append, List.cons.injEq] at h
            rw [← h.1] at hd
            exact absurd hd (by decide)
          · intro h
            simp only [List.cons.injEq] at h
            rw [h.1] at hs
            omega
        · rw [if_neg hs]
          simp only [List.cons_append, List.nil_append, List.cons.injEq]
          rw [ofNat_simpleLowercase_eq_iff c d hd h130, ih (c :: before) w hw']

/-- Equality of the lowercased string with a text of lower-case ASCII letters:
it holds exactly when the string, its KELVIN SIGNs read as `K`, is that text up
to ASCII letter case. -/
theorem toLowerCase_eq_iff (v w : Str) (hw : ∀ d ∈ w, 97 ≤ d.toNat ∧ d.toNat ≤ 122) :
    toLowerCase v = w ↔ byteLowercase (v.map kelvinAsK) = w :=
  toLowerCaseAux_eq_iff v [] w hw

/-- A string that is a text of lower-case ASCII letters up to ASCII letter case
holds no KELVIN SIGN. -/
theorem map_kelvinAsK_of_byteLowercase (v w : Str)
    (hw : ∀ d ∈ w, 97 ≤ d.toNat ∧ d.toNat ≤ 122) (h : byteLowercase v = w) :
    v.map kelvinAsK = v := by
  conv_rhs => rw [← List.map_id v]
  apply List.map_congr_left
  intro c hc
  have hmem : byteLower c ∈ w := by
    rw [← h]
    exact List.mem_map_of_mem _ hc
  have hr := hw _ hmem
  unfold kelvinAsK
  by_cases hK : c.toNat = 0x212A
  · unfold byteLower at hr
    rw [if_neg (by omega)] at hr
    omega
  · rw [if_neg hK]
    rfl

theorem websocket_lowercase : ∀ d ∈ "websocket".data, 97 ≤ d.toNat ∧ d.toNat ≤ 122 := by
  decide

theorem relayHttp_relay (P : Platform) (req : Request) (t : Str) :
    (relayHttp P req t).relay = none := by
  unfold relayHttp
  split <;> rfl

/-- A relay is set up only in the WebSocket branch, when the upstream response
carries a socket: the relay's own socket is the second of the pair, the first
goes back in the 101 response. -/
theorem relay_established (P : Platform) (req : Request) (server ws : Socket)
    (hrel : (fetch P req).relay = some (server, ws)) :
    ∃ t res, fetch P req = relayWebSocket P req t ∧ P.fetch (webSocketInit req t) = .ok res ∧
      res.webSocket = some ws ∧ server = P.socketPair.2 ∧
      (fetch P req).result = .ok (initializeResponse none 101 [] (some P.socketPair.1)) := by
  rcases fetch_cases P req with hu | ⟨t, h | h⟩
  · rcases fetch_without_upstream P req hu with h | ⟨_, _, _, h⟩ <;> rw [h] at hrel <;>
      simp [respond] at hrel
  · refine ⟨t, ?_⟩
    rw [h] at hrel
    cases hf : P.fetch (webSocketInit req t) with
    | error e => simp [relayWebSocket, hf] at hrel
    | ok res =>
      cases hs : res.webSocket with
      | none => simp [relayWebSocket, hf, hs] at hrel
      | some w =>
        simp only [relayWebSocket, hf, hs, Option.some.injEq, Prod.mk.injEq] at hrel
        refine ⟨res, h, rfl, ?_, hrel.1.symm, ?_⟩
        · rw [hs, hrel.2]
        · rw [h]
          simp only [relayWebSocket, hf, hs]
          rfl
  · rw [h, relayHttp_relay] at hrel
    simp at hrel

theorem relayTrace_filter (server ws : Socket) (hne : server ≠ ws)
    (events : List (Side × SocketEvent)) :
    (relayTrace server ws events).filter (fun c => c.target = ws) =
        (events.filter fun e => e.1 = Side.server).map (fun e => e.2.replayOn ws) ∧
      (relayTrace server ws events).filter (fun c => c.target = server) =
        (events.filter fun e => e.1 = Side.upstream).map (fun e => e.2.replayOn server) := by
  have hne' : ws ≠ server := fun h => hne h.symm
  unfold relayTrace
  induction events with
  | nil => exact ⟨rfl, rfl⟩
  | cons e events ih =>
    obtain ⟨side, ev⟩ := e
    simp only [List.map_cons, List.filter_cons]
    rw [ih.1, ih.2]
    cases side <;> cases ev <;>
      simp [relayHandler, SocketCall.target, SocketEvent.replayOn, hne, hne']

theorem utf8Encode_lt_248 (c : Char) : ∀ b ∈ utf8Encode c, b < 248 := by
  have h := char_toNat_lt c
  intro b hb
  unfold utf8Encode at hb
  simp only at hb
  split_ifs at hb <;> simp at hb <;> omega

/-- The byte `FF` occurs in no UTF-8 text. -/
theorem utf8Bytes_no_255 (s : Str) : 255 ∉ utf8Bytes s := by
  intro h
  simp only [utf8Bytes, List.mem_flatMap] at h
  obtain ⟨c, _, hc⟩ := h
  have := utf8Encode_lt_248 c 255 hc
  omega

/-! ## Claims -/

/-- C1 (defect in the code): the redirect rewriter encodes the URL
`https://example.com/a%2Fb` as `aHR0cHM6Ly9leGFtcGxlLmNvbS9hJTJGYg`, and the
resolver decodes that text to `https://example.com/a/b`, a different URL: the
final `decodeURIComponent` of the decoder turns the escape `%2F` of the URL
into a slash, so the pair is not a round trip. -/
theorem decodeTarget_encodeLocation_escape :
    encodeLocation "https://example.com/a%2Fb".data =
        .ok "aHR0cHM6Ly9leGFtcGxlLmNvbS9hJTJGYg".data ∧
      decodeTarget "aHR0cHM6Ly9leGFtcGxlLmNvbS9hJTJGYg".data =
        .ok "https://example.com/a/b".data ∧
      decodeTarget "aHR0cHM6Ly9leGFtcGxlLmNvbS9hJTJGYg".data ≠
        .ok "https://example.com/a%2Fb".data := by
  decide

/-- C2 as stated fails: an `OPTIONS` request for `/health` is answered by the
health check, with status 200, body `OK` and none of the CORS headers. -/
theorem options_health_not_preflight :
    (fetch (samplePlatform (.error .networkError))
        { sampleRequest "OPTIONS".data [] with pathname := "/health".data }).result =
      .ok { status := 200, body := some (.text "OK".data),
            headers := [("Content-Type".data, "text/plain;charset=UTF-8".data)],
            webSocket := none } := by
  decide

/-- C2 (amended): an `OPTIONS` request whose path is neither `/` nor `/health`
gets, whatever its path and query, status 204 with no body, a header list made
of exactly the six CORS names, each of them present, and no upstream request is
issued. -/
theorem options_preflight (P : Platform) (req : Request) (hm : req.method = "OPTIONS".data)
    (h1 : req.pathname ≠ "/".data) (h2 : req.pathname ≠ "/health".data) :
    (fetch P req).upstream = [] ∧
      ∃ r, (fetch P req).result = .ok r ∧ r.status = 204 ∧ r.body = none ∧
        r.headers.map Prod.fst = corsNames ∧
        ∀ n ∈ corsNames, (Headers.get r.headers n).isSome = true := by
  have hr : fetch P req =
      respond (newResponse none 204 (corsHeaders (Headers.get req.headers "Origin".data)) none) := by
    unfold fetch
    rw [if_neg (by simp [h1, h2]), if_pos hm]
  rw [hr]
  refine ⟨rfl, _, rfl, rfl, rfl, ?_, ?_⟩
  · exact fill_corsHeaders_names _
  · intro n hn
    apply Headers.get_isSome_of_mem_names
    rw [show (initializeResponse none 204 (corsHeaders (Headers.get req.headers "Origin".data))
      none).headers = Headers.fill (corsHeaders (Headers.get req.headers "Origin".data)) from rfl,
      fill_corsHeaders_names]
    exact hn

theorem options_preflight_witness :
    (fetch (samplePlatform (.error .networkError)) (sampleRequest "OPTIONS".data [])).upstream = [] ∧
      ∃ r, (fetch (samplePlatform (.error .networkError)) (sampleRequest "OPTIONS".data [])).result
          = .ok r ∧ r.status = 204 ∧ r.body = none ∧
        r.headers.map Prod.fst = corsNames ∧
        ∀ n ∈ corsNames, (Headers.get r.headers n).isSome = true :=
  options_preflight _ _ (by decide) (by decide) (by decide)

/-- C3: a request whose path is exactly `/` or `/health` gets, whatever its
method, headers and query, status 200 with the body `OK`, and no upstream
request is issued. -/
theorem health_check (P : Platform) (req : Request)
    (h : req.pathname = "/".data ∨ req.pathname = "/health".data) :
    (fetch P req).upstream = [] ∧
      ∃ r, (fetch P req).result = .ok r ∧ r.status = 200 ∧ r.body = some (.text "OK".data) := by
  unfold fetch
  rw [if_pos h]
  exact ⟨rfl, _, rfl, rfl, rfl⟩

theorem health_check_witness :
    (fetch (samplePlatform (.error .networkError))
        { sampleRequest "DELETE".data [] with pathname := "/health".data }).upstream = [] ∧
      ∃ r, (fetch (samplePlatform (.error .networkError))
          { sampleRequest "DELETE".data [] with pathname := "/health".data }).result = .ok r ∧
        r.status = 200 ∧ r.body = some (.text "OK".data) :=
  health_check _ _ (Or.inr (by decide))

/-- C4 (defect in the code): the upstream answers with
`Access-Control-Allow-Origin: https://up.example` and the request carries
`Origin: https://app.example`.  The relayed response holds both values under
that name: `Object.fromEntries(headers)` keys the upstream value by the
lowercased name, the spread of `corsHeaders` adds the capitalised key next to
it, and the `Response` constructor appends both. -/
theorem relay_combines_upstream_cors :
    ((fetch (samplePlatform (.ok (sampleAnswer
        [("Access-Control-Allow-Origin".data, "https://up.example".data)])))
      (sampleRequest "GET".data [("Origin".data, "https://app.example".data)])).result.map
        fun r => Headers.get r.headers "Access-Control-Allow-Origin".data) =
      .ok (some "https://up.example, https://app.example".data) := by
  decide

/-- C5 as stated fails: with a `fetch` that rejects, the handler returns no
response on the HTTP path and none on the WebSocket path; it ends with the
error of `fetch`. -/
theorem upstream_failure_not_502 :
    (fetch (samplePlatform (.error .networkError)) (sampleRequest "GET".data [])).result =
        .error .networkError ∧
      (fetch (samplePlatform (.error .networkError))
        (sampleRequest "GET".data [("Upgrade".data, "websocket".data)])).result =
        .error .networkError := by
  decide

/-- C5 (amended): when the handler has issued an upstream request and the
platform `fetch` fails on it, on the HTTP path and on the WebSocket path alike,
the handler returns no response: it ends with the error of `fetch`. -/
theorem upstream_failure_propagates (P : Platform) (req : Request) (u : UpstreamRequest)
    (e : JsError) (hu : u ∈ (fetch P req).upstream) (he : P.fetch u = .error e) :
    (fetch P req).result = .error e := by
  rcases fetch_cases P req with h | ⟨t, h | h⟩
  · rw [h] at hu
    simp at hu
  · rw [h] at hu ⊢
    rw [relayWebSocket_upstream, List.mem_singleton] at hu
    rw [hu] at he
    simp [relayWebSocket, he]
  · rw [h] at hu ⊢
    rw [relayHttp_upstream, List.mem_singleton] at hu
    rw [hu] at he
    simp [relayHttp, he]

theorem upstream_failure_propagates_witness :
    (fetch (samplePlatform (.error .networkError)) (sampleRequest "POST".data [])).result =
      .error .networkError :=
  upstream_failure_propagates (samplePlatform (.error .networkError))
    (sampleRequest "POST".data [])
    { url := "https://example.com/a".data, method := "POST".data, headers := [], body := none,
      redirect := "manual".data }
    .networkError (by decide) rfl

/-- C6: whatever the inbound headers, no header of the result of
`cleanHeaders` has a name that matches, case-insensitively, `host`, `origin`,
`referer`, `cf-connecting-ip` or `x-forwarded-for`; looking any of them up in
the result gives nothing. -/
theorem cleanHeaders_strips (headers : Headers) (d : Str) (hd : d ∈ denyList) :
    (∀ p ∈ cleanHeaders headers, nameMatches p.1 d = false) ∧
      Headers.get (cleanHeaders headers) d = none := by
  refine ⟨fun p hp => cleanHeaders_no_match hp hd, ?_⟩
  rw [← Option.not_isSome_iff_eq_none, Headers.get_isSome_iff]
  rintro ⟨p, hp, hm⟩
  rw [cleanHeaders_no_match hp hd] at hm
  exact absurd hm (by simp)

theorem cleanHeaders_strips_witness :
    (∀ p ∈ cleanHeaders [("Host".data, "proxy.example".data), ("Accept".data, "*/*".data),
        ("X-Forwarded-For".data, "203.0.113.7".data)],
        nameMatches p.1 "x-forwarded-for".data = false) ∧
      Headers.get (cleanHeaders [("Host".data, "proxy.example".data),
        ("Accept".data, "*/*".data), ("X-Forwarded-For".data, "203.0.113.7".data)])
        "x-forwarded-for".data = none :=
  cleanHeaders_strips _ _ (by decide)

/-- C7 (defect in the code): of two `Set-Cookie` headers only the last one is
left by `cleanHeaders`.  Iterating a `Headers` object yields the values of
`set-cookie` one by one, and the loop stores each with `set`, which replaces
what the previous turn stored. -/
theorem cleanHeaders_loses_set_cookie :
    cleanHeaders [("Set-Cookie".data, "a=1".data), ("Set-Cookie".data, "b=2".data)] =
        [("set-cookie".data, "b=2".data)] ∧
      Headers.get [("Set-Cookie".data, "a=1".data), ("Set-Cookie".data, "b=2".data)]
        "set-cookie".data = some "a=1, b=2".data ∧
      Headers.get (cleanHeaders [("Set-Cookie".data, "a=1".data), ("Set-Cookie".data, "b=2".data)])
        "set-cookie".data = some "b=2".data := by
  decide

/-- C8 (defect in the code): on the WebSocket path the inbound request itself
is the init object of the upstream `fetch`, so its `Origin`, `Referer` and
`X-Forwarded-For` headers reach the upstream; the same headers on the HTTP path
are removed. -/
theorem websocket_forwards_identifying_headers :
    ((fetch (samplePlatform (.error .networkError))
        (sampleRequest "GET".data [("Upgrade".data, "websocket".data),
          ("Origin".data, "https://app.example".data), ("Referer".data, "https://app.example/page".data),
          ("X-Forwarded-For".data, "203.0.113.7".data)])).upstream.map fun u => u.headers) =
        [[("Upgrade".data, "websocket".data), ("Origin".data, "https://app.example".data),
          ("Referer".data, "https://app.example/page".data),
          ("X-Forwarded-For".data, "203.0.113.7".data)]] ∧
      ((fetch (samplePlatform (.error .networkError))
        (sampleRequest "GET".data [("Origin".data, "https://app.example".data),
          ("Referer".data, "https://app.example/page".data),
          ("X-Forwarded-For".data, "203.0.113.7".data)])).upstream.map fun u => u.headers) =
        [[]] := by
  decide

/-- C9 as stated fails: the upstream answers with status 999 and
`Location: /b`, which resolves against the target `https://example.com/a`.
The handler issues the upstream request, and then `new Response` throws a
`RangeError` on the status: no response is returned to the caller, so none
carries the rewritten `location`. -/
theorem location_lost_with_status_999 :
    ((fetch (samplePlatform (.ok (answerWith 999 [("Location".data, "/b".data)] none)))
        (sampleRequest "GET".data [])).upstream.map fun u => u.url) =
        ["https://example.com/a".data] ∧
      (fetch (samplePlatform (.ok (answerWith 999 [("Location".data, "/b".data)] none)))
        (sampleRequest "GET".data [])).result = .error .rangeError := by
  decide

/-- C9 (amended): when a request reaches the HTTP relay with resolved target
`t`, the upstream response has a status that the `Response` constructor accepts
(from 200 to 599, and no body along with a null body status) and carries a
non-empty `Location` value `L` (as the handler reads it from its copy of the
upstream headers, that is, without surrounding whitespace) that the URL parser
resolves against `t` to the absolute URL `R`, then a response is returned to
the caller and it has, as its `location`, exactly `/proxy/` followed by the
url-safe unpadded base64 of the UTF-8 bytes of `R`. -/
theorem location_rewritten (P : Platform) (req : Request) (t : Str) (res : UpstreamResponse)
    (L R : Str) (hreach : fetch P req = relayHttp P req t)
    (hf : P.fetch (httpInit req t) = .ok res)
    (hL : Headers.get res.headers "location".data = some L) (hne : normalizeValue L ≠ [])
    (hR : P.resolveURL (normalizeValue L) t = some R) (h1 : 200 ≤ res.status)
    (h2 : res.status ≤ 599) (h3 : res.body = none ∨ isNullBodyStatus res.status = false) :
    ∃ r, (fetch P req).result = .ok r ∧
      Headers.get r.headers "location".data =
        some ("/proxy/".data ++ urlSafeBase64 (utf8Bytes R)) := by
  obtain ⟨r, hr, _, _, hloc⟩ := relayHttp_location P req t res L R hf hL hne hR h1 h2 h3
  exact ⟨r, by rw [hreach]; exact hr, hloc⟩

theorem location_rewritten_witness :
    ∃ r, (fetch (samplePlatform (.ok (answerWith 302 [("Location".data, "/b".data)] none)))
        (sampleRequest "GET".data [])).result = .ok r ∧
      Headers.get r.headers "location".data =
        some "/proxy/aHR0cHM6Ly9leGFtcGxlLmNvbS9i".data :=
  location_rewritten (samplePlatform (.ok (answerWith 302 [("Location".data, "/b".data)] none)))
    (sampleRequest "GET".data []) "https://example.com/a".data
    (answerWith 302 [("Location".data, "/b".data)] none)
    "/b".data "https://example.com/b".data
    (by decide) rfl (by decide) (by decide) (by decide) (by decide) (by decide) (Or.inl rfl)

/-- C10: for every string, the redirect rewriter produces an encoded path (the
encoding never throws); that path is the standard base64 of the string's UTF-8
bytes with `+` mapped to `-`, `/` mapped to `_` and the trailing `=` removed,
which is the unpadded url-safe base64 of those bytes (the bytes being those of
the UTF-8 encoder of the Lean core library); and it consists only of
the characters `A`-`Z`, `a`-`z`, `0`-`9`, `-` and `_`, so it holds no `+`, no
`/` and no `=`. -/
theorem encodeLocation_urlSafe (u : Str) :
    encodeLocation u = .ok (urlSafeBase64 (utf8Bytes u)) ∧
      utf8Bytes u = (u.flatMap String.utf8EncodeChar).map UInt8.toNat ∧
      urlSafeBase64 (utf8Bytes u) = base64Url (utf8Bytes u) ∧
      ∀ c ∈ urlSafeBase64 (utf8Bytes u),
        isUrlSafeChar c = true ∧ c ≠ '+' ∧ c ≠ '/' ∧ c ≠ '=' := by
  refine ⟨encodeLocation_eq u, utf8Bytes_eq_core u, urlSafeBase64_eq_base64Url _, fun c hc => ?_⟩
  have hs := urlSafeBase64_urlSafe _ c hc
  obtain ⟨h1, h2, h3⟩ := isUrlSafeChar_ne c hs
  exact ⟨hs, h2, h3, h1⟩

/-- C11 (defect in the code, the one of C1): the segment
`aHR0cHM6Ly9leGFtcGxlLmNvbS__` is well-formed base64 of the bytes of
`https://example.com/` followed by the byte `FF`, which are not valid UTF-8 (no
string has them as its UTF-8 bytes).  The resolver does not reject it: `atob`
gives the binary string, `decodeURIComponent` copies the character `ÿ` as it
is, the URL constructor accepts the result, and the handler issues an upstream
request and relays its answer; no 400 is returned.  A segment that is
malformed base64 (here `a`) does get 400 with `Invalid encoded URL`. -/
theorem invalid_utf8_segment_accepted :
    decodeTarget "aHR0cHM6Ly9leGFtcGxlLmNvbS__".data =
        .ok ("https://example.com/".data ++ [Char.ofNat 255]) ∧
      (∀ s : Str, utf8Bytes s ≠ "https://example.com/".data.map Char.toNat ++ [255]) ∧
      ((fetch (tablePlatform (.ok (sampleAnswer [])))
        (requestFor "GET".data "/proxy/aHR0cHM6Ly9leGFtcGxlLmNvbS__".data [] [])).upstream.map
          fun u => u.url) = ["https://example.com/%C3%BF".data] ∧
      ((fetch (tablePlatform (.ok (sampleAnswer [])))
        (requestFor "GET".data "/proxy/aHR0cHM6Ly9leGFtcGxlLmNvbS__".data [] [])).result.map
          fun r => r.status) = .ok 200 ∧
      ((fetch (tablePlatform (.ok (sampleAnswer [])))
        (requestFor "GET".data "/proxy/a".data [] [])).result.map
          fun r => (r.status, r.body)) = .ok (400, some (.text "Invalid encoded URL".data)) := by
  refine ⟨by decide, fun s h => ?_, by decide, by decide, by decide⟩
  have hmem : 255 ∈ utf8Bytes s := by
    rw [h]
    simp
  exact utf8Bytes_no_255 s hmem

/-- C12: a request that is neither a health check (path `/` or `/health`) nor
an `OPTIONS` preflight and whose path does not begin with `/proxy` gets status
400 with the body `Missing target URL`, whatever its query (a `url` parameter
included), and no upstream request is issued. -/
theorem missing_target (P : Platform) (req : Request) (h1 : req.pathname ≠ "/".data)
    (h2 : req.pathname ≠ "/health".data) (hm : req.method ≠ "OPTIONS".data)
    (hp : "/proxy".data.isPrefixOf req.pathname = false) :
    (fetch P req).upstream = [] ∧
      ∃ r, (fetch P req).result = .ok r ∧ r.status = 400 ∧
        r.body = some (.text "Missing target URL".data) := by
  rw [fetch_after_guards P req h1 h2 hm, resolveTarget_not_proxy req hp]
  exact ⟨rfl, _, rfl, rfl, rfl⟩

theorem missing_target_witness :
    (fetch (tablePlatform (.ok (sampleAnswer [])))
        (requestFor "GET".data "/other".data [("url".data, "https://example.com/a".data)]
          [])).upstream = [] ∧
      ∃ r, (fetch (tablePlatform (.ok (sampleAnswer [])))
          (requestFor "GET".data "/other".data [("url".data, "https://example.com/a".data)]
            [])).result = .ok r ∧ r.status = 400 ∧
        r.body = some (.text "Missing target URL".data) :=
  missing_target _ _ (by decide) (by decide) (by decide) (by decide)

/-- C13 as stated fails: the candidate `mailto:a@example.com` has a scheme and
no host, the URL constructor accepts it, and the handler hands it to `fetch`
instead of answering 400. -/
theorem hostless_target_accepted :
    hasSchemeAndHost "mailto:a@example.com".data = false ∧
      ((fetch (tablePlatform (.error .typeError))
        (requestFor "GET".data "/proxy".data [("url".data, "mailto:a@example.com".data)]
          [])).upstream.map fun u => u.url) = ["mailto:a@example.com".data] ∧
      (fetch (tablePlatform (.error .typeError))
        (requestFor "GET".data "/proxy".data [("url".data, "mailto:a@example.com".data)]
          [])).result = .error .typeError := by
  decide

/-- C13 (amended): when the resolved candidate string, from the `url` query
parameter or from the decoded path segment, is one the URL constructor rejects
(`new URL(candidate)` throws), the handler returns status 400 and issues no
upstream request. -/
theorem invalid_target (P : Platform) (req : Request) (q : Str) (h1 : req.pathname ≠ "/".data)
    (h2 : req.pathname ≠ "/health".data) (hm : req.method ≠ "OPTIONS".data)
    (hq : resolveTarget req = .ok (some q)) (ht : P.parseURL q = none) :
    (fetch P req).upstream = [] ∧ ∃ r, (fetch P req).result = .ok r ∧ r.status = 400 := by
  obtain ⟨msg, hmsg⟩ := fetch_unparsed P req q h1 h2 hm hq ht
  rw [hmsg]
  exact ⟨rfl, _, rfl, rfl⟩

theorem invalid_target_witness :
    (fetch (tablePlatform (.ok (sampleAnswer [])))
        (requestFor "GET".data "/proxy".data [("url".data, "example.com/a".data)]
          [])).upstream = [] ∧
      ∃ r, (fetch (tablePlatform (.ok (sampleAnswer [])))
          (requestFor "GET".data "/proxy".data [("url".data, "example.com/a".data)]
            [])).result = .ok r ∧ r.status = 400 :=
  invalid_target _ _ "example.com/a".data (by decide) (by decide) (by decide) (by decide)
    (by decide)

/-- C14 as stated fails: for `url=https://example.com` the upstream request
goes to `https://example.com/`, the serialisation of the parsed URL, which is
not the string of the parameter. -/
theorem upstream_url_serialised :
    ((fetch (tablePlatform (.ok (sampleAnswer [])))
        (requestFor "GET".data "/proxy".data [("url".data, "https://example.com".data)]
          [])).upstream.map fun u => u.url) = ["https://example.com/".data] ∧
      ((fetch (tablePlatform (.ok (sampleAnswer [])))
        (requestFor "GET".data "/proxy".data [("url".data, "https://example.com".data)]
          [])).upstream.map fun u => u.url) ≠ ["https://example.com".data] := by
  decide

/-- C14 (amended): for a request that is not `OPTIONS` and not a WebSocket
upgrade, whose path begins with `/proxy` and whose `url` query parameter is a
non-empty string `q` that the URL constructor parses, the handler issues
exactly one upstream request, to the serialised form `t` of the parsed `q`
(`targetUrl.toString()`; the path after `/proxy` plays no part) and with the
method of the inbound request. -/
theorem query_target (P : Platform) (req : Request) (q t : Str)
    (hm : req.method ≠ "OPTIONS".data)
    (hws : (Headers.get req.headers "Upgrade".data).map toLowerCase ≠ some "websocket".data)
    (hp : "/proxy".data.isPrefixOf req.pathname = true)
    (hq : searchParamsGet req.searchParams "url".data = some q) (hne : q ≠ [])
    (ht : P.parseURL q = some t) :
    ∃ u, (fetch P req).upstream = [u] ∧ u.url = t ∧ u.method = req.method := by
  obtain ⟨h1, h2⟩ := not_health_of_proxy req hp
  rw [fetch_resolved P req q t h1 h2 hm (resolveTarget_query req q hp hq hne) ht hne, if_neg hws,
    relayHttp_upstream]
  exact ⟨_, rfl, rfl, rfl⟩

theorem query_target_witness :
    ∃ u, (fetch (tablePlatform (.ok (sampleAnswer [])))
        (requestFor "POST".data "/proxy/ignored".data
          [("url".data, "https://example.com/a?x=1".data)] [])).upstream = [u] ∧
      u.url = "https://example.com/a?x=1".data ∧ u.method = "POST".data :=
  query_target (tablePlatform (.ok (sampleAnswer [])))
    (requestFor "POST".data "/proxy/ignored".data
      [("url".data, "https://example.com/a?x=1".data)] [])
    "https://example.com/a?x=1".data "https://example.com/a?x=1".data
    (by decide) (by decide) (by decide) (by decide) (by decide) (by decide)

/-- C15: for a request that reaches the HTTP relay, the upstream request has no
body when the method is `GET` or `HEAD`, whatever body the inbound request
carried, and has exactly the inbound body for every other method. -/
theorem upstream_body (P : Platform) (req : Request) (t : Str)
    (hreach : fetch P req = relayHttp P req t) :
    ∃ u, (fetch P req).upstream = [u] ∧
      (req.method = "GET".data ∨ req.method = "HEAD".data → u.body = none) ∧
      (¬ (req.method = "GET".data ∨ req.method = "HEAD".data) → u.body = req.body) := by
  rw [hreach, relayHttp_upstream]
  refine ⟨_, rfl, fun h => ?_, fun h => ?_⟩
  · simp only [httpInit, if_pos h]
  · simp only [httpInit, if_neg h]

theorem upstream_body_witness :
    ∃ u, (fetch (tablePlatform (.ok (sampleAnswer [])))
        (requestFor "HEAD".data "/proxy".data [("url".data, "https://example.com/a".data)]
          [])).upstream = [u] ∧
      ("HEAD".data = "GET".data ∨ "HEAD".data = "HEAD".data → u.body = none) ∧
      (¬ ("HEAD".data = "GET".data ∨ "HEAD".data = "HEAD".data) →
        u.body = some (.stream [1, 2, 3])) :=
  upstream_body (tablePlatform (.ok (sampleAnswer [])))
    (requestFor "HEAD".data "/proxy".data [("url".data, "https://example.com/a".data)] [])
    "https://example.com/a".data (by decide)

/-- C16 as stated fails: the upstream answers with status 999 and a body.  The
request went out with `redirect: "manual"`, but the `Response` constructor
throws a `RangeError` on the status, so the caller gets no response: neither
the status nor the body of the upstream response is passed on. -/
theorem status_999_not_relayed :
    ((fetch (tablePlatform (.ok (answerWith 999 [] (some (.stream [7])))))
      (requestFor "GET".data "/proxy".data [("url".data, "https://example.com/a".data)]
        [])).upstream.map fun u => u.redirect) = ["manual".data] ∧
      (fetch (tablePlatform (.ok (answerWith 999 [] (some (.stream [7])))))
      (requestFor "GET".data "/proxy".data [("url".data, "https://example.com/a".data)]
        [])).result = .error .rangeError := by
  decide

/-- C16 (amended): for a request that reaches the HTTP relay, the upstream
request is issued with `redirect: "manual"`.  When the status of the upstream
response is one the `Response` constructor accepts (from 200 to 599, 3xx
included, and no body along with a null body status), a response is returned
to the caller and it has the status and the body of the upstream response.
When the status lies outside 200..599 the handler returns no response: it ends
with the `RangeError` of the constructor. -/
theorem relay_passes_status_and_body (P : Platform) (req : Request) (t : Str)
    (res : UpstreamResponse) (hreach : fetch P req = relayHttp P req t)
    (hf : P.fetch (httpInit req t) = .ok res) :
    (∃ u, (fetch P req).upstream = [u] ∧ u.redirect = "manual".data) ∧
      (200 ≤ res.status → res.status ≤ 599 →
        res.body = none ∨ isNullBodyStatus res.status = false →
        ∃ r, (fetch P req).result = .ok r ∧ r.status = res.status ∧ r.body = res.body) ∧
      (res.status < 200 ∨ 599 < res.status → (fetch P req).result = .error .rangeError) := by
  have hres : (relayHttp P req t).result =
      newResponse res.body res.status
        (responseHeaders (rewriteLocation P t res.headers)
          (Headers.get req.headers "Origin".data)) none := by
    unfold relayHttp
    rw [hf]
  rw [hreach, relayHttp_upstream, hres]
  refine ⟨⟨_, rfl, rfl⟩, fun h1 h2 h3 => ?_, fun h => newResponse_rangeError _ _ _ h⟩
  rw [newResponse_ok _ _ _ h1 h2 h3]
  exact ⟨_, rfl, rfl, rfl⟩

theorem relay_passes_status_and_body_witness :
    ∃ r, (fetch (tablePlatform (.ok
        (answerWith 302 [("Location".data, "/b".data)] (some (.stream [7])))))
        (requestFor "GET".data "/proxy".data [("url".data, "https://example.com/a".data)]
          [])).result = .ok r ∧ r.status = 302 ∧ r.body = some (.stream [7]) :=
  (relay_passes_status_and_body (tablePlatform (.ok
      (answerWith 302 [("Location".data, "/b".data)] (some (.stream [7])))))
    (requestFor "GET".data "/proxy".data [("url".data, "https://example.com/a".data)] [])
    "https://example.com/a".data
    (answerWith 302 [("Location".data, "/b".data)] (some (.stream [7])))
    (by decide) rfl).2.1 (by decide) (by decide) (Or.inr rfl)

/-- C17 as stated fails: the 200 health response, a 400 response and the 502
response carry no `Access-Control-Allow-Origin` header. -/
theorem handler_built_responses_lack_cors :
    ((fetch (tablePlatform (.ok (sampleAnswer [])))
        (requestFor "GET".data "/health".data [] [("Origin".data, "https://app.example".data)])
        ).result.map fun r => (r.status, Headers.get r.headers "Access-Control-Allow-Origin".data))
        = .ok (200, none) ∧
      ((fetch (tablePlatform (.ok (sampleAnswer [])))
        (requestFor "GET".data "/other".data [] [("Origin".data, "https://app.example".data)])
        ).result.map fun r => (r.status, Headers.get r.headers "Access-Control-Allow-Origin".data))
        = .ok (400, none) ∧
      ((fetch (tablePlatform (.ok (sampleAnswer [])))
        (requestFor "GET".data "/proxy".data [("url".data, "https://example.com/a".data)]
          [("Origin".data, "https://app.example".data), ("Upgrade".data, "websocket".data)])
        ).result.map fun r => (r.status, Headers.get r.headers "Access-Control-Allow-Origin".data))
        = .ok (502, none) := by
  decide

/-- C17 (amended): of the responses the handler builds itself (those of a call
that issues no upstream request, and those of the WebSocket branch), the 204
preflight response carries the six CORS headers, and every other one (the 200
health response, each 400 response, the 502 response, the 101 response)
carries none of them. -/
theorem handler_built_responses_cors (P : Platform) (req : Request) (r : Response)
    (hr : (fetch P req).result = .ok r)
    (hself : (fetch P req).upstream = [] ∨ ∃ t, fetch P req = relayWebSocket P req t) :
    (r.status = 204 → ∀ n ∈ corsNames, (Headers.get r.headers n).isSome = true) ∧
      (r.status ≠ 204 → ∀ n ∈ corsNames, Headers.get r.headers n = none) := by
  rcases hself with hu | ⟨t, ht⟩
  · rcases fetch_without_upstream P req hu with h | ⟨msg, status, hst, h⟩
    · rw [h] at hr
      have hr' := newResponse_eq_ok (show newResponse none 204
        (corsHeaders (Headers.get req.headers "Origin".data)) none = .ok r from hr)
      subst hr'
      refine ⟨fun _ n hn => ?_, fun hne => absurd rfl hne⟩
      apply Headers.get_isSome_of_mem_names
      rw [show (initializeResponse none 204 (corsHeaders (Headers.get req.headers "Origin".data))
        none).headers = Headers.fill (corsHeaders (Headers.get req.headers "Origin".data))
        from rfl, fill_corsHeaders_names]
      exact hn
    · rw [h] at hr
      have hr' := newResponse_eq_ok (show newResponse (some (.text msg)) status [] none = .ok r
        from hr)
      subst hr'
      refine ⟨fun h204 => absurd h204 hst, fun _ n hn => ?_⟩
      rw [newResponse_text_headers]
      exact text_headers_no_cors n hn
  · rw [ht] at hr
    rcases relayWebSocket_result P req t r hr with h | ⟨h101, hnil⟩
    · subst h
      refine ⟨fun h204 => absurd h204 (by decide), fun _ n hn => ?_⟩
      rw [newResponse_text_headers]
      exact text_headers_no_cors n hn
    · refine ⟨fun h204 => ?_, fun _ n _ => ?_⟩
      · rw [h101] at h204
        exact absurd h204 (by decide)
      · rw [hnil]
        rfl

theorem handler_built_responses_cors_witness :
    (400 = 204 → ∀ n ∈ corsNames,
        (Headers.get [("Content-Type".data, "text/plain;charset=UTF-8".data)] n).isSome = true) ∧
      (400 ≠ 204 → ∀ n ∈ corsNames,
        Headers.get [("Content-Type".data, "text/plain;charset=UTF-8".data)] n = none) :=
  handler_built_responses_cors (tablePlatform (.ok (sampleAnswer [])))
    (requestFor "GET".data "/other".data [] [("Origin".data, "https://app.example".data)])
    { status := 400, body := some (.text "Missing target URL".data),
      headers := [("Content-Type".data, "text/plain;charset=UTF-8".data)], webSocket := none }
    (by decide) (Or.inl (by decide))

/-- C18: for a request with a resolved target `t`, the handler takes the
WebSocket branch when the `Upgrade` header, lowercased by `toLowerCase`, equals
`websocket`, and the HTTP relay branch when the header is absent or different.
The test holds exactly for the values that are `websocket` up to the case of
their letters, the KELVIN SIGN `U+212A` counting, as Unicode lowercasing has
it, for a capital `K`; so it holds for every value that is `websocket` up to
ASCII letter case.  In the WebSocket branch a response of the upstream without
a socket makes the handler return status 502. -/
theorem upgrade_selects_branch (P : Platform) (req : Request) (q t : Str)
    (h1 : req.pathname ≠ "/".data) (h2 : req.pathname ≠ "/health".data)
    (hm : req.method ≠ "OPTIONS".data) (hq : resolveTarget req = .ok (some q))
    (ht : P.parseURL q = some t) (hne : q ≠ []) :
    ((Headers.get req.headers "Upgrade".data).map toLowerCase = some "websocket".data ↔
        ∃ v, Headers.get req.headers "Upgrade".data = some v ∧
          byteLowercase (v.map kelvinAsK) = "websocket".data) ∧
      (∀ v, Headers.get req.headers "Upgrade".data = some v →
        byteLowercase v = "websocket".data →
        (Headers.get req.headers "Upgrade".data).map toLowerCase = some "websocket".data) ∧
      ((Headers.get req.headers "Upgrade".data).map toLowerCase = some "websocket".data →
        fetch P req = relayWebSocket P req t ∧
          ∀ res, P.fetch (webSocketInit req t) = .ok res → res.webSocket = none →
            ∃ r, (fetch P req).result = .ok r ∧ r.status = 502) ∧
      ((Headers.get req.headers "Upgrade".data).map toLowerCase ≠ some "websocket".data →
        fetch P req = relayHttp P req t) ∧
      (Headers.get req.headers "Upgrade".data = none → fetch P req = relayHttp P req t) := by
  have hf := fetch_resolved P req q t h1 h2 hm hq ht hne
  refine ⟨?_, fun v hv hlow => ?_, fun hws => ?_, fun hws => ?_, fun hnone => ?_⟩
  · cases Headers.get req.headers "Upgrade".data with
    | none => simp
    | some v => simp [toLowerCase_eq_iff v _ websocket_lowercase]
  · have hlc : toLowerCase v = "websocket".data := by
      rw [toLowerCase_eq_iff v _ websocket_lowercase,
        map_kelvinAsK_of_byteLowercase v _ websocket_lowercase hlow, hlow]
    rw [hv, Option.map_some', hlc]
  · rw [if_pos hws] at hf
    refine ⟨hf, fun res hres hsock => ?_⟩
    rw [hf]
    unfold relayWebSocket
    rw [hres]
    simp only [hsock]
    exact ⟨_, rfl, rfl⟩
  · rw [if_neg hws] at hf
    exact hf
  · rw [if_neg (by simp [hnone])] at hf
    exact hf

theorem upgrade_selects_branch_witness :
    ∃ r, (fetch (tablePlatform (.ok (sampleAnswer [])))
        (requestFor "GET".data "/proxy".data [("url".data, "https://example.com/a".data)]
          [("Upgrade".data, "WebSoc\u212Aet".data)])).result = .ok r ∧ r.status = 502 :=
  ((upgrade_selects_branch (tablePlatform (.ok (sampleAnswer [])))
    (requestFor "GET".data "/proxy".data [("url".data, "https://example.com/a".data)]
      [("Upgrade".data, "WebSoc\u212Aet".data)])
    "https://example.com/a".data "https://example.com/a".data
    (by decide) (by decide) (by decide) (by decide) (by decide) (by decide)).2.2.1
      (by decide)).2 (sampleAnswer []) rfl rfl

/-- C19: in a relay the handler has set up between its own socket `server`
(the client-side one) and the upstream socket `ws`, every message or close
event on one socket makes the relay perform exactly one call, on the other
socket, with the payload unchanged: a message with data `d` becomes `send(d)`,
a close with code `c` and reason `r` becomes `close(c, r)`.  Over a sequence of
events there are as many calls as events, and the calls made on each socket
are the events of the other socket, in their order.  The relay exists only
with the 101 response that returns the client end of the pair. -/
theorem relay_forwards (P : Platform) (req : Request) (server ws : Socket)
    (hrel : (fetch P req).relay = some (server, ws)) :
    (∃ r, (fetch P req).result = .ok r ∧ r.status = 101 ∧ r.webSocket = some P.socketPair.1) ∧
      server = P.socketPair.2 ∧
      (∃ u res, (fetch P req).upstream = [u] ∧ P.fetch u = .ok res ∧
        res.webSocket = some ws) ∧
      (∀ ev, relayHandler server ws .server ev = ev.replayOn ws) ∧
      (∀ ev, relayHandler server ws .upstream ev = ev.replayOn server) ∧
      (∀ events, (relayTrace server ws events).length = events.length) ∧
      (server ≠ ws → ∀ events,
        (relayTrace server ws events).filter (fun c => c.target = ws) =
            (events.filter fun e => e.1 = Side.server).map (fun e => e.2.replayOn ws) ∧
          (relayTrace server ws events).filter (fun c => c.target = server) =
            (events.filter fun e => e.1 = Side.upstream).map (fun e => e.2.replayOn server)) := by
  obtain ⟨t, res, hbranch, hfetch, hsock, hserver, hresult⟩ :=
    relay_established P req server ws hrel
  refine ⟨⟨_, hresult, rfl, rfl⟩, hserver, ⟨_, res, ?_, hfetch, hsock⟩, fun ev => ?_, fun ev => ?_,
    fun events => ?_, fun hne events => relayTrace_filter server ws hne events⟩
  · rw [hbranch, relayWebSocket_upstream]
  · cases ev <;> rfl
  · cases ev <;> rfl
  · simp [relayTrace]

theorem relay_forwards_witness :
    relayHandler 2 9 .server (.close 1000 "bye".data) = .close 9 1000 "bye".data ∧
      relayHandler 2 9 .upstream (.close 1000 "bye".data) = .close 2 1000 "bye".data ∧
      relayHandler 2 9 .server (.message (.text "hi".data)) = .send 9 (.text "hi".data) ∧
      relayHandler 2 9 .upstream (.message (.binary [0, 255])) = .send 2 (.binary [0, 255]) :=
  have h := relay_forwards
    (tablePlatform (.ok { status := 101, headers := [], body := none, webSocket := some 9 }))
    (requestFor "GET".data "/proxy".data [("url".data, "https://example.com/a".data)]
      [("Upgrade".data, "websocket".data)]) 2 9 (by decide)
  ⟨h.2.2.2.1 _, h.2.2.2.2.1 _, h.2.2.2.1 _, h.2.2.2.2.1 _⟩

/-- C20: for every string `U` made only of ASCII characters and holding no
`%`, the redirect rewriter produces an encoded path, and the resolver's decoder
accepts that path and returns exactly `U`.  For every string at all, the
encoded path has a length that is not 1 modulo 4 and the base64 decoder accepts
it without its padding, returning the UTF-8 bytes of the string. -/
theorem restricted_roundtrip (U : Str) (hascii : ∀ c ∈ U, c.toNat < 128) (hpct : '%' ∉ U) :
    (∃ e, encodeLocation U = .ok e ∧ decodeTarget e = .ok U) ∧
      ∀ V : Str, ∃ e, encodeLocation V = .ok e ∧ e.length % 4 ≠ 1 ∧
        atob (replaceAll '_' '/' (replaceAll '-' '+' e)) =
          .ok ((utf8Bytes V).map Char.ofNat) := by
  constructor
  · refine ⟨_, encodeLocation_eq U, ?_⟩
    rw [decodeTarget_encoded, utf8Bytes_ascii U hascii, List.map_map]
    have hid : U.map (Char.ofNat ∘ Char.toNat) = U := by
      conv_rhs => rw [← List.map_id U]
      apply List.map_congr_left
      intro c _
      simp
    rw [hid]
    exact decodeURIComponentAux_plain U hpct
  · intro V
    refine ⟨_, encodeLocation_eq V, ?_, ?_⟩
    · rw [urlSafeBase64_eq_base64Url, base64Url_eq_sextets, List.length_map]
      exact sextets_length _
    · rw [urlSafeBase64_eq_base64Url, base64Url_standard,
        atob_unpadded _ (utf8Bytes_lt V)]

theorem restricted_roundtrip_witness :
    (∃ e, encodeLocation "https://example.com/a?x=1".data = .ok e ∧
        decodeTarget e = .ok "https://example.com/a?x=1".data) ∧
      ∀ V : Str, ∃ e, encodeLocation V = .ok e ∧ e.length % 4 ≠ 1 ∧
        atob (replaceAll '_' '/' (replaceAll '-' '+' e)) =
          .ok ((utf8Bytes V).map Char.ofNat) :=
  restricted_roundtrip "https://example.com/a?x=1".data (by decide) (by decide)

end Yxorp
